import Mathlib

/-!
Verification development for a tree-walking interpreter written in Rust
(scanner -> parser -> environment chain -> recursive evaluator).

Modelling conventions, used throughout:
- Rust `String` / `&str` values are modelled as `List Char`.
- Rust `f64` numbers are modelled as exact fractions `LoxNum` (an integer
  numerator and a positive integer denominator) with computable arithmetic;
  `f64::EPSILON` is `2^-52`.  Floating-point rounding is not modelled: the
  properties proved here concern which operations are performed and which
  errors are raised, not rounded bit-level results.
- Rust byte slicing of a `&str` (`&s[a..b]`), which panics when `a` or `b`
  is not a UTF-8 character boundary, is modelled by `byteSlice`, which
  returns `none` exactly when the Rust code would panic.
- Interior mutability (`Rc<RefCell<Environment>>` / shared environments) is
  modelled store-passing style: a `Store` holds all allocated scopes and an
  environment is an address (`Addr`) into it.
- Iteration and recursion are made total with an explicit fuel argument;
  fuel exhaustion is a distinguished outcome, never confused with the
  program's own errors.
-/

namespace Lox

/-- Rust `&str` is modelled as a list of characters. -/
abbrev Str := List Char

/-! ## Numbers: the model of `f64` (scanner/parser/interpreter literals) -/

/-- Model of an `f64` value: an exact fraction.  The denominator is kept
positive by construction of every operation below (it is not enforced by a
proof field, so that values stay decidably comparable by computation). -/
structure LoxNum where
  num : Int
  den : Int
deriving DecidableEq

namespace LoxNum

/-- Embed an integer. -/
def ofInt (n : Int) : LoxNum := ⟨n, 1⟩

instance : OfNat LoxNum n := ⟨ofInt n⟩

/-- `f64` addition (exact in this model). -/
def add (a b : LoxNum) : LoxNum := ⟨a.num * b.den + b.num * a.den, a.den * b.den⟩

/-- `f64` subtraction (exact in this model). -/
def sub (a b : LoxNum) : LoxNum := ⟨a.num * b.den - b.num * a.den, a.den * b.den⟩

/-- `f64` multiplication (exact in this model). -/
def mul (a b : LoxNum) : LoxNum := ⟨a.num * b.num, a.den * b.den⟩

/-- `f64` negation. -/
def neg (a : LoxNum) : LoxNum := ⟨-a.num, a.den⟩

/-- `f64` division (exact in this model); the sign is moved into the
numerator so the denominator stays positive. -/
def div (a b : LoxNum) : LoxNum :=
  let n := a.num * b.den
  let d := a.den * b.num
  if d < 0 then ⟨-n, -d⟩ else ⟨n, d⟩

/-- `x == 0.0` on `f64`. -/
def isZero (a : LoxNum) : Bool := a.num == 0

/-- `a < b`, valid because denominators are positive by construction. -/
def blt (a b : LoxNum) : Bool := a.num * b.den < b.num * a.den

/-- `a <= b`. -/
def ble (a b : LoxNum) : Bool := a.num * b.den ≤ b.num * a.den

/-- `f64::abs`. -/
def abs (a : LoxNum) : LoxNum := ⟨(a.num.natAbs : Int), a.den⟩

/-- `f64::EPSILON = 2^-52`. -/
def epsilon : LoxNum := ⟨1, 4503599627370496⟩

end LoxNum

/-! ## Token model (src/scanner/token.rs) -/

/-- `TokenType` from src/scanner/token.rs: the closed token vocabulary. -/
inductive TokenType
  | LeftParen | RightParen | LeftBrace | RightBrace
  | Comma | Dot | Minus | Plus | Semicolon | Star | Slash
  | Bang | BangEqual | Equal | EqualEqual
  | Greater | GreaterEqual | Less | LessEqual
  | String | Number | Identifier
  | And | Class | Else | False | Fun | For | If | Nil | Or
  | Print | Return | Super | This | True | Var | While
  | Eof
deriving DecidableEq

/-- `Token` from src/scanner/token.rs. -/
structure Token where
  token_type : TokenType
  lexeme : Str
  literal : Option Str
  line : Nat
deriving DecidableEq

/-- The lexical error record (`Error` in src/scanner/token.rs, displayed as
`[line N] Error: message`). -/
structure ScanError where
  message : Str
  line : Nat
deriving DecidableEq

/-! ## Keywords (src/scanner/keywords.rs) -/

/-- The fixed keyword table from src/scanner/keywords.rs. -/
def keywords : List (Str × TokenType) :=
  [ ("and".toList, .And), ("class".toList, .Class), ("else".toList, .Else)
  , ("false".toList, .False), ("for".toList, .For), ("fun".toList, .Fun)
  , ("if".toList, .If), ("nil".toList, .Nil), ("or".toList, .Or)
  , ("print".toList, .Print), ("return".toList, .Return), ("super".toList, .Super)
  , ("this".toList, .This), ("true".toList, .True), ("var".toList, .Var)
  , ("while".toList, .While) ]

/-- `HashMap::get` over the keyword table. -/
def keywordLookup (text : Str) : Option TokenType :=
  (keywords.find? (fun p => p.1 == text)).map (·.2)

/-! ## UTF-8 byte arithmetic

The Rust scanner mixes *character* indices (`advance` walks
`source.chars()`) with *byte* lengths (`is_at_end` compares against
`source.len()`) and *byte* slicing (`&self.source[a..b]` in `identifier`
and `number`).  These helpers model that faithfully: `utf8Len` is
`str::len` (bytes) and `byteSlice` is `&s[a..b]`, `none` when Rust would
panic because a bound is not a character boundary or past the end. -/

/-- `str::len`: the UTF-8 byte length of the text. -/
def utf8Len (s : Str) : Nat := s.foldr (fun c n => c.utf8Size + n) 0

/-- Drop `n` leading bytes, succeeding only on a character boundary. -/
def byteDrop : Str → Nat → Option Str
  | s, 0 => some s
  | [], _ + 1 => none
  | c :: cs, n + 1 =>
      if c.utf8Size ≤ n + 1 then byteDrop cs (n + 1 - c.utf8Size) else none

/-- Take `n` leading bytes, succeeding only on a character boundary. -/
def byteTake : Str → Nat → Option Str
  | _, 0 => some []
  | [], _ + 1 => none
  | c :: cs, n + 1 =>
      if c.utf8Size ≤ n + 1 then (byteTake cs (n + 1 - c.utf8Size)).map (c :: ·)
      else none

/-- `&s[a..b]`: `none` models the Rust byte-slicing panic. -/
def byteSlice (s : Str) (a b : Nat) : Option Str :=
  if a ≤ b then (byteDrop s a).bind (fun t => byteTake t (b - a)) else none

/-- Rust `char::is_alphabetic` (Unicode letters), modelled exactly on the
ASCII and Latin-1 ranges, which cover every input considered here. -/
def rustIsAlphabetic (c : Char) : Bool :=
  c.isAlpha || (0xC0 ≤ c.toNat && c.toNat ≤ 0xFF && c.toNat ≠ 0xD7 && c.toNat ≠ 0xF7)

/-- Rust `char::is_alphanumeric`, same modelling note as `rustIsAlphabetic`. -/
def rustIsAlphanumeric (c : Char) : Bool :=
  rustIsAlphabetic c || c.isDigit

/-! ## Scanner (src/scanner/scanner.rs)

The scanner state and each method of `Scanner`, translated arm by arm.
`rt` models the foreign call `literal.parse::<f64>()` followed by
`f64::to_string` in `Scanner::number` (Rust standard library, not
repository code): `rt text` is the re-rendered text, `none` when the parse
fails (in Rust that `expect` panics).  Panics are the `Except.error` case
throughout; the message text of a panic is a modelling choice.  The inner
`while` loops are given explicit fuel by their callers; since every
iteration advances `current` by one and every guard fails once `current`
reaches the byte length of the source, `utf8Len source + 1` is always
enough. -/

/-- The `Scanner` struct from src/scanner/scanner.rs. -/
structure Scanner where
  source : Str
  tokens : List Token
  start : Nat
  current : Nat
  line : Nat
  errors : List ScanError

namespace Scanner

/-- `Scanner::new`. -/
def new (source : Str) : Scanner := ⟨source, [], 0, 0, 1, []⟩

/-- `Scanner::is_at_end`: compares the *character* cursor against the
*byte* length of the source (`self.current >= self.source.len()`). -/
def is_at_end (st : Scanner) : Bool := decide (utf8Len st.source ≤ st.current)

/-- `Scanner::advance`: bump the cursor, return `chars().nth(current-1)`. -/
def advance (st : Scanner) : Option Char × Scanner :=
  (st.source.get? st.current, { st with current := st.current + 1 })

/-- `Scanner::peek`: `'\n'` when at the end or past the character count. -/
def peek (st : Scanner) : Char :=
  if st.is_at_end then '\n' else (st.source.get? st.current).getD '\n'

/-- `Scanner::peek_next`. -/
def peek_next (st : Scanner) : Char :=
  if utf8Len st.source ≤ st.current + 1 then '\n'
  else (st.source.get? (st.current + 1)).getD '\n'

/-- `Scanner::next_char_match`; `none` models the `unwrap` panic on
`chars().nth(current)` when the cursor is past the character count but not
yet past the byte length. -/
def next_char_match (st : Scanner) (expected : Char) : Option (Bool × Scanner) :=
  if st.is_at_end then some (false, st)
  else match st.source.get? st.current with
    | none => none
    | some c =>
        if c ≠ expected then some (false, st)
        else some (true, { st with current := st.current + 1 })

/-- `Scanner::add_token`: the lexeme is `chars().skip(start).take(current - start)`. -/
def add_token (st : Scanner) (token_type : TokenType) (literal : Option Str) : Scanner :=
  let text := (st.source.drop st.start).take (st.current - st.start)
  { st with tokens := st.tokens ++ [⟨token_type, text, literal, st.line⟩] }

/-- Append a lexical error (`self.errors.push(...)`). -/
def pushError (st : Scanner) (message : Str) : Scanner :=
  { st with errors := st.errors ++ [⟨message, st.line⟩] }

/-- The `while peek().is_alphanumeric() || peek() == '_'` loop of
`Scanner::identifier`. -/
def identifierLoop : Nat → Scanner → Scanner
  | 0, st => st
  | fuel + 1, st =>
      let c := st.peek
      if rustIsAlphanumeric c || c = '_' then
        identifierLoop fuel { st with current := st.current + 1 }
      else st

/-- `Scanner::identifier`: consume the tail, then *byte*-slice
`&source[start..current]` with character indices — the `Except.error` case
is the byte-boundary panic. -/
def identifier (st : Scanner) : Except Str Scanner :=
  let st := identifierLoop (utf8Len st.source + 1) st
  match byteSlice st.source st.start st.current with
  | none => .error "byte index is not a char boundary".toList
  | some text =>
      match keywordLookup text with
      | some token_type => .ok (st.add_token token_type none)
      | none => .ok (st.add_token .Identifier none)

/-- The `while self.peek() != '\u{22}' && !self.is_at_end()` loop of
`Scanner::string`, each embedded newline bumping the line counter. -/
def stringLoop : Nat → Scanner → Scanner
  | 0, st => st
  | fuel + 1, st =>
      if st.peek ≠ '"' && !st.is_at_end then
        let st := if st.peek = '\n' then { st with line := st.line + 1 } else st
        stringLoop fuel { st with current := st.current + 1 }
      else st

/-- `Scanner::string`: unterminated strings record one lexical error and
produce no token; the literal payload is sliced by characters. -/
def string (st : Scanner) : Scanner :=
  let st := stringLoop (utf8Len st.source + 1) st
  if st.is_at_end then st.pushError "Unterminated string.".toList
  else
    let st := { st with current := st.current + 1 }
    let literal := (st.source.drop (st.start + 1)).take (st.current - st.start - 2)
    st.add_token .String (some literal)

/-- The `while self.peek().is_digit(10)` loop of `Scanner::number`. -/
def digitLoop : Nat → Scanner → Scanner
  | 0, st => st
  | fuel + 1, st =>
      if st.peek.isDigit then digitLoop fuel { st with current := st.current + 1 }
      else st

/-- `Scanner::number`: consume digits (and an optional `.` followed by a
digit), byte-slice the literal text, round-trip it through `f64` (`rt`),
and normalise the result to always contain a decimal point.  The
`Except.error` cases are the byte-boundary panic and the `expect` panic on
an unparsable literal. -/
def number (rt : Str → Option Str) (st : Scanner) : Except Str Scanner :=
  let st := digitLoop (utf8Len st.source + 1) st
  let st :=
    if st.peek = '.' && st.peek_next.isDigit then
      digitLoop (utf8Len st.source + 1) { st with current := st.current + 1 }
    else st
  match byteSlice st.source st.start st.current with
  | none => .error "byte index is not a char boundary".toList
  | some literal =>
      match rt literal with
      | none => .error "Number token should be parsed into float".toList
      | some v =>
          let value := if '.' ∈ v then v else v ++ ".0".toList
          .ok (st.add_token .Number (some value))

/-- The `while !is_at_end && peek() != '\n'` loop that skips a `//` comment. -/
def commentLoop : Nat → Scanner → Scanner
  | 0, st => st
  | fuel + 1, st =>
      if !st.is_at_end && st.peek ≠ '\n' then
        commentLoop fuel { st with current := st.current + 1 }
      else st

/-- `Scanner::scan_token`, translated arm by arm. -/
def scan_token (rt : Str → Option Str) (st : Scanner) : Except Str Scanner :=
  match st.advance with
  | (none, st) => .ok st
  | (some c, st) =>
    match c with
    | '(' => .ok (st.add_token .LeftParen none)
    | ')' => .ok (st.add_token .RightParen none)
    | '{' => .ok (st.add_token .LeftBrace none)
    | '}' => .ok (st.add_token .RightBrace none)
    | ',' => .ok (st.add_token .Comma none)
    | '.' => .ok (st.add_token .Dot none)
    | '-' => .ok (st.add_token .Minus none)
    | '+' => .ok (st.add_token .Plus none)
    | ';' => .ok (st.add_token .Semicolon none)
    | '*' => .ok (st.add_token .Star none)
    | ' ' | '\r' | '\t' => .ok st
    | '\n' => .ok { st with line := st.line + 1 }
    | '/' =>
        match st.next_char_match '/' with
        | none => .error "unwrap on None in next_char_match".toList
        | some (true, st) => .ok (commentLoop (utf8Len st.source + 1) st)
        | some (false, st) => .ok (st.add_token .Slash none)
    | '!' =>
        match st.next_char_match '=' with
        | none => .error "unwrap on None in next_char_match".toList
        | some (true, st) => .ok (st.add_token .BangEqual none)
        | some (false, st) => .ok (st.add_token .Bang none)
    | '=' =>
        match st.next_char_match '=' with
        | none => .error "unwrap on None in next_char_match".toList
        | some (true, st) => .ok (st.add_token .EqualEqual none)
        | some (false, st) => .ok (st.add_token .Equal none)
    | '<' =>
        match st.next_char_match '=' with
        | none => .error "unwrap on None in next_char_match".toList
        | some (true, st) => .ok (st.add_token .LessEqual none)
        | some (false, st) => .ok (st.add_token .Less none)
    | '>' =>
        match st.next_char_match '=' with
        | none => .error "unwrap on None in next_char_match".toList
        | some (true, st) => .ok (st.add_token .GreaterEqual none)
        | some (false, st) => .ok (st.add_token .Greater none)
    | '"' => .ok (st.string)
    | c =>
        if c.isDigit then number rt st
        else if rustIsAlphabetic c || c = '_' then identifier st
        else .ok (st.pushError ("Unexpected character: ".toList ++ [c]))

end Scanner

/-- The outcome of `Scanner::scan_tokens`: the token and error lists on
normal completion, a panic, or (never reached with the fuel used by
`scan_tokens`) fuel exhaustion. -/
inductive ScanOut
  | ok (tokens : List Token) (errors : List ScanError)
  | panicked (msg : Str)
  | fuelOut

namespace Scanner

/-- The `while !self.is_at_end()` loop of `Scanner::scan_tokens`, ending by
appending the single end-of-file token. -/
def scanLoop (rt : Str → Option Str) : Nat → Scanner → ScanOut
  | 0, _ => .fuelOut
  | fuel + 1, st =>
      if st.is_at_end then
        let st := { st with tokens := st.tokens ++ [Token.mk .Eof [] none st.line] }
        .ok st.tokens st.errors
      else
        match scan_token rt { st with start := st.current } with
        | .error msg => .panicked msg
        | .ok st => scanLoop rt fuel st

/-- `Scanner::scan_tokens` on a fresh scanner.  Every `scan_token` call
advances `current` by at least one, so `utf8Len source + 1` rounds of the
loop always reach the end of the input. -/
def scan_tokens (rt : Str → Option Str) (source : Str) : ScanOut :=
  scanLoop rt (utf8Len source + 1) (new source)

end Scanner

/-! ## AST (src/parser/expr.rs and src/parser/stmt.rs) -/

/-- `Literal` from src/parser/expr.rs (`f64` modelled as `LoxNum`). -/
inductive Literal
  | Number (n : LoxNum)
  | String (s : Str)
  | Bool (b : Bool)
  | Nil

/-- `Expr` from src/parser/expr.rs.  The `Call` variant is not declared in
src/parser/expr.rs, but `Interpreter::evaluate` in src/interpreter.rs
(line 312) matches `Expr::Call(callee, paren, arguments)`; the variant is
included here with exactly the shape that consumer declares. -/
inductive Expr
  | Literal (l : Literal)
  | Unary (op : Token) (e : Expr)
  | Binary (l : Expr) (op : Token) (r : Expr)
  | Grouping (e : Expr)
  | Variable (name : Token)
  | Assign (name : Token) (e : Expr)
  | Logical (l : Expr) (op : Token) (r : Expr)
  | Call (callee : Expr) (paren : Token) (arguments : List Expr)

/-- `Stmt` from src/parser/stmt.rs. -/
inductive Stmt
  | Expression (e : Expr)
  | Print (e : Expr)
  | Var (name : Token) (initializer : Option Expr)
  | Block (stmts : List Stmt)
  | If (condition : Expr) (then_branch : Stmt) (else_branch : Option Stmt)
  | While (condition : Expr) (body : Stmt)
  | For (initializer : Option Stmt) (condition : Option Expr)
        (increment : Option Expr) (body : Stmt)
  | Function (name : Token) (params : List Token) (body : List Stmt)
  | Return (e : Option Expr)

/-- `ParseError` from src/parser/error.rs. -/
structure ParseError where
  message : Str
  line : Nat
deriving DecidableEq

/-! ## Parser (src/parser/parser.rs)

The parser walks a fixed token slice with a cursor, so each method is a
function of `(tokens, current)`; success returns the parsed node and the
new cursor.  All recursion carries explicit fuel (`fuelOut` never occurs
at the fuel budgets used below).  Rust indexes `self.tokens[...]`
directly; the scanner always terminates the slice with an end-of-file
token, which keeps those accesses in bounds, and the sentinel default used
by `peekP`/`previousP` mirrors that end-of-file token. -/

/-- The result of one parser method: the parsed value and new cursor, a
`ParseError`, or fuel exhaustion. -/
inductive PRes (α : Type)
  | ok (val : α) (next : Nat)
  | err (e : ParseError)
  | fuelOut

/-- `Parser::peek` (`&self.tokens[self.current]`). -/
def peekP (tokens : List Token) (current : Nat) : Token :=
  (tokens.get? current).getD (Token.mk .Eof [] none 0)

/-- `Parser::previous` (`&self.tokens[self.current - 1]`). -/
def previousP (tokens : List Token) (current : Nat) : Token :=
  (tokens.get? (current - 1)).getD (Token.mk .Eof [] none 0)

/-- `Parser::is_at_end`. -/
def is_at_endP (tokens : List Token) (current : Nat) : Bool :=
  (peekP tokens current).token_type = .Eof

/-- `Parser::check`. -/
def checkP (tokens : List Token) (current : Nat) (token_type : TokenType) : Bool :=
  if is_at_endP tokens current then false
  else (peekP tokens current).token_type = token_type

/-- `Parser::matches`: advance past the first matching token type. -/
def matchesP (types : List TokenType) (tokens : List Token) (current : Nat) : Bool × Nat :=
  if types.any (fun t => checkP tokens current t) then (true, current + 1)
  else (false, current)

/-- `Parser::consume`: the expected token, or a `ParseError` carrying the
caller's message and the offending token's line. -/
def consumeP (token_type : TokenType) (message : Str) (tokens : List Token)
    (current : Nat) : PRes Token :=
  if checkP tokens current token_type then .ok (peekP tokens current) (current + 1)
  else .err ⟨message, (peekP tokens current).line⟩

/-- The digit run of a literal as a natural number (`none` if any
character is not a digit or the run is empty). -/
def digitsToNat (s : Str) : Option Nat :=
  if s.isEmpty then none
  else s.foldlM (fun acc c => if c.isDigit then some (acc * 10 + (c.toNat - 48)) else none) 0

/-- The foreign call `literal.parse::<f64>()` in
`Parser::convert_token_literal`, modelled exactly for the literal shapes
the scanner produces (digits, optionally a point and digits). -/
def parseNum (s : Str) : Option LoxNum :=
  match s.splitOn '.' with
  | [a] => (digitsToNat a).map (fun n => ⟨(n : Int), 1⟩)
  | [a, b] =>
      match digitsToNat a, digitsToNat b with
      | some n, some f => some ⟨(n * 10 ^ b.length + f : Int), ((10 : Int) ^ b.length)⟩
      | _, _ => none
  | _ => none

/-- `Parser::convert_token_literal`. -/
def convert_token_literal (token : Token) : Except ParseError Literal :=
  match token.token_type with
  | .False => .ok (.Bool false)
  | .True => .ok (.Bool true)
  | .Nil => .ok .Nil
  | .Number =>
      match token.literal with
      | some l =>
          match parseNum l with
          | some value => .ok (.Number value)
          | none => .error ⟨"Expect number.".toList, token.line⟩
      | none => .error ⟨"Expect number.".toList, token.line⟩
  | .String =>
      match token.literal with
      | some l => .ok (.String l)
      | none => .error ⟨"Expect string.".toList, token.line⟩
  | _ => .error ⟨"Expect literal.".toList, token.line⟩

mutual

/-- `Parser::declaration`. -/
def declaration : Nat → List Token → Nat → PRes Stmt
  | 0, _, _ => .fuelOut
  | fuel + 1, tokens, current =>
      match matchesP [.Var] tokens current with
      | (true, current) => var_declaration fuel tokens current
      | (false, current) => statement fuel tokens current
termination_by structural fuel _ _ => fuel

/-- `Parser::var_declaration`. -/
def var_declaration : Nat → List Token → Nat → PRes Stmt
  | 0, _, _ => .fuelOut
  | fuel + 1, tokens, current =>
      match consumeP .Identifier "Expect variable name.".toList tokens current with
      | .err e => .err e
      | .fuelOut => .fuelOut
      | .ok name current =>
          let step : PRes (Option Expr) :=
            match matchesP [.Equal] tokens current with
            | (true, current) =>
                match expression fuel tokens current with
                | .ok e current => .ok (some e) current
                | .err e => .err e
                | .fuelOut => .fuelOut
            | (false, current) => .ok none current
          match step with
          | .err e => .err e
          | .fuelOut => .fuelOut
          | .ok initializer current =>
              match consumeP .Semicolon "Expect ';' after value.".toList tokens current with
              | .err e => .err e
              | .fuelOut => .fuelOut
              | .ok _ current => .ok (.Var name initializer) current

/-- `Parser::statement`. -/
def statement : Nat → List Token → Nat → PRes Stmt
  | 0, _, _ => .fuelOut
  | fuel + 1, tokens, current =>
      match matchesP [.Print] tokens current with
      | (true, current) => print_statement fuel tokens current
      | (false, current) =>
      match matchesP [.LeftBrace] tokens current with
      | (true, current) =>
          match block fuel tokens current with
          | .ok stmts current => .ok (.Block stmts) current
          | .err e => .err e
          | .fuelOut => .fuelOut
      | (false, current) =>
      match matchesP [.If] tokens current with
      | (true, current) => if_statement fuel tokens current
      | (false, current) =>
      match matchesP [.While] tokens current with
      | (true, current) => while_statement fuel tokens current
      | (false, current) =>
      match matchesP [.For] tokens current with
      | (true, current) => for_statement fuel tokens current
      | (false, current) => expression_stmt fuel tokens current
termination_by structural fuel _ _ => fuel

/-- `Parser::print_statement`. -/
def print_statement : Nat → List Token → Nat → PRes Stmt
  | 0, _, _ => .fuelOut
  | fuel + 1, tokens, current =>
      match expression fuel tokens current with
      | .err e => .err e
      | .fuelOut => .fuelOut
      | .ok value current =>
          match consumeP .Semicolon "Expect ';' after value.".toList tokens current with
          | .err e => .err e
          | .fuelOut => .fuelOut
          | .ok _ current => .ok (.Print value) current

/-- The declaration loop of `Parser::block`. -/
def blockLoop : Nat → List Token → Nat → List Stmt → PRes (List Stmt)
  | 0, _, _, _ => .fuelOut
  | fuel + 1, tokens, current, acc =>
      if !checkP tokens current .RightBrace && !is_at_endP tokens current then
        match declaration fuel tokens current with
        | .err e => .err e
        | .fuelOut => .fuelOut
        | .ok stmt current => blockLoop fuel tokens current (acc ++ [stmt])
      else .ok acc current
termination_by structural fuel _ _ _ => fuel

/-- `Parser::block`. -/
def block : Nat → List Token → Nat → PRes (List Stmt)
  | 0, _, _ => .fuelOut
  | fuel + 1, tokens, current =>
      match blockLoop fuel tokens current [] with
      | .err e => .err e
      | .fuelOut => .fuelOut
      | .ok stmts current =>
          match consumeP .RightBrace "Expect '\x7d' after block.".toList tokens current with
          | .err e => .err e
          | .fuelOut => .fuelOut
          | .ok _ current => .ok stmts current
termination_by structural fuel _ _ => fuel

/-- `Parser::if_statement`. -/
def if_statement : Nat → List Token → Nat → PRes Stmt
  | 0, _, _ => .fuelOut
  | fuel + 1, tokens, current =>
      match consumeP .LeftParen "Expect '(' after 'if'.".toList tokens current with
      | .err e => .err e
      | .fuelOut => .fuelOut
      | .ok _ current =>
      match expression fuel tokens current with
      | .err e => .err e
      | .fuelOut => .fuelOut
      | .ok condition current =>
      match consumeP .RightParen "Expect ')' after 'if'.".toList tokens current with
      | .err e => .err e
      | .fuelOut => .fuelOut
      | .ok _ current =>
      match statement fuel tokens current with
      | .err e => .err e
      | .fuelOut => .fuelOut
      | .ok then_branch current =>
      match matchesP [.Else] tokens current with
      | (true, current) =>
          match statement fuel tokens current with
          | .err e => .err e
          | .fuelOut => .fuelOut
          | .ok else_branch current =>
              .ok (.If condition then_branch (some else_branch)) current
      | (false, current) => .ok (.If condition then_branch none) current
termination_by structural fuel _ _ => fuel

/-- `Parser::while_statement`. -/
def while_statement : Nat → List Token → Nat → PRes Stmt
  | 0, _, _ => .fuelOut
  | fuel + 1, tokens, current =>
      match consumeP .LeftParen "Expect '(' after 'while'.".toList tokens current with
      | .err e => .err e
      | .fuelOut => .fuelOut
      | .ok _ current =>
      match expression fuel tokens current with
      | .err e => .err e
      | .fuelOut => .fuelOut
      | .ok condition current =>
      match consumeP .RightParen "Expect ')' after 'while'.".toList tokens current with
      | .err e => .err e
      | .fuelOut => .fuelOut
      | .ok _ current =>
      match statement fuel tokens current with
      | .err e => .err e
      | .fuelOut => .fuelOut
      | .ok body current => .ok (.While condition body) current
termination_by structural fuel _ _ => fuel

/-- The condition slot of `Parser::for_statement`: the parsed expression
when one is present, otherwise the literal-`true` default
(`Some(Expr::Literal(Literal::Bool(true)))`). -/
def forCondition : Nat → List Token → Nat → PRes (Option Expr)
  | 0, _, _ => .fuelOut
  | fuel + 1, tokens, current =>
      if !checkP tokens current .Semicolon then
        match expression fuel tokens current with
        | .ok e current => .ok (some e) current
        | .err e => .err e
        | .fuelOut => .fuelOut
      else .ok (some (.Literal (.Bool true))) current

/-- `Parser::for_statement`, including the literal-`true` default inserted
when the condition slot is empty (the condition clause is the
`forCondition` helper above). -/
def for_statement : Nat → List Token → Nat → PRes Stmt
  | 0, _, _ => .fuelOut
  | fuel + 1, tokens, current =>
      match consumeP .LeftParen "Expect '(' after 'for'.".toList tokens current with
      | .err e => .err e
      | .fuelOut => .fuelOut
      | .ok _ current =>
      let initStep : PRes (Option Stmt) :=
        match matchesP [.Semicolon] tokens current with
        | (true, current) => .ok none current
        | (false, current) =>
            match matchesP [.Var] tokens current with
            | (true, current) =>
                match var_declaration fuel tokens current with
                | .ok s current => .ok (some s) current
                | .err e => .err e
                | .fuelOut => .fuelOut
            | (false, current) =>
                match expression_stmt fuel tokens current with
                | .ok s current => .ok (some s) current
                | .err e => .err e
                | .fuelOut => .fuelOut
      match initStep with
      | .err e => .err e
      | .fuelOut => .fuelOut
      | .ok initializer current =>
      match forCondition fuel tokens current with
      | .err e => .err e
      | .fuelOut => .fuelOut
      | .ok condition current =>
      match consumeP .Semicolon "Expect ';' after loop condition".toList tokens current with
      | .err e => .err e
      | .fuelOut => .fuelOut
      | .ok _ current =>
      let incStep : PRes (Option Expr) :=
        if !checkP tokens current .RightParen then
          match expression fuel tokens current with
          | .ok e current => .ok (some e) current
          | .err e => .err e
          | .fuelOut => .fuelOut
        else .ok none current
      match incStep with
      | .err e => .err e
      | .fuelOut => .fuelOut
      | .ok increment current =>
      match consumeP .RightParen "Expect ')' after for clauses.".toList tokens current with
      | .err e => .err e
      | .fuelOut => .fuelOut
      | .ok _ current =>
      match statement fuel tokens current with
      | .err e => .err e
      | .fuelOut => .fuelOut
      | .ok body current => .ok (.For initializer condition increment body) current
termination_by structural fuel _ _ => fuel

/-- `Parser::expression_stmt`; the terminating `;` is only demanded when
the parser is not at the end of the tokens. -/
def expression_stmt : Nat → List Token → Nat → PRes Stmt
  | 0, _, _ => .fuelOut
  | fuel + 1, tokens, current =>
      match expression fuel tokens current with
      | .err e => .err e
      | .fuelOut => .fuelOut
      | .ok e current =>
          if !is_at_endP tokens current then
            match consumeP .Semicolon "Expect ';' after expression.".toList tokens current with
            | .err e => .err e
            | .fuelOut => .fuelOut
            | .ok _ current => .ok (.Expression e) current
          else .ok (.Expression e) current

/-- `Parser::expression`. -/
def expression : Nat → List Token → Nat → PRes Expr
  | 0, _, _ => .fuelOut
  | fuel + 1, tokens, current => assignment fuel tokens current
termination_by structural fuel _ _ => fuel

/-- `Parser::assignment` (right-associative; a non-`Variable` target is an
error at the equals sign's line). -/
def assignment : Nat → List Token → Nat → PRes Expr
  | 0, _, _ => .fuelOut
  | fuel + 1, tokens, current =>
      match orExpr fuel tokens current with
      | .err e => .err e
      | .fuelOut => .fuelOut
      | .ok expr current =>
      match matchesP [.Equal] tokens current with
      | (true, current) =>
          let equals := previousP tokens current
          match assignment fuel tokens current with
          | .err e => .err e
          | .fuelOut => .fuelOut
          | .ok value current =>
              match expr with
              | .Variable name => .ok (.Assign name value) current
              | _ => .err ⟨"Invalid assignment target.".toList, equals.line⟩
      | (false, current) => .ok expr current
termination_by structural fuel _ _ => fuel

/-- `Parser::or` (named `orExpr` here because `or` is taken in Lean). -/
def orExpr : Nat → List Token → Nat → PRes Expr
  | 0, _, _ => .fuelOut
  | fuel + 1, tokens, current =>
      match andExpr fuel tokens current with
      | .err e => .err e
      | .fuelOut => .fuelOut
      | .ok expr current => orLoop fuel tokens current expr
termination_by structural fuel _ _ => fuel

/-- The `while self.matches(&[Or])` loop of `Parser::or`. -/
def orLoop : Nat → List Token → Nat → Expr → PRes Expr
  | 0, _, _, _ => .fuelOut
  | fuel + 1, tokens, current, expr =>
      match matchesP [.Or] tokens current with
      | (true, current) =>
          let operator := previousP tokens current
          match andExpr fuel tokens current with
          | .err e => .err e
          | .fuelOut => .fuelOut
          | .ok right current => orLoop fuel tokens current (.Logical expr operator right)
      | (false, current) => .ok expr current
termination_by structural fuel _ _ _ => fuel

/-- `Parser::and` (named `andExpr` here because `and` is taken in Lean). -/
def andExpr : Nat → List Token → Nat → PRes Expr
  | 0, _, _ => .fuelOut
  | fuel + 1, tokens, current =>
      match equality fuel tokens current with
      | .err e => .err e
      | .fuelOut => .fuelOut
      | .ok expr current => andLoop fuel tokens current expr
termination_by structural fuel _ _ => fuel

/-- The `while self.matches(&[And])` loop of `Parser::and`. -/
def andLoop : Nat → List Token → Nat → Expr → PRes Expr
  | 0, _, _, _ => .fuelOut
  | fuel + 1, tokens, current, expr =>
      match matchesP [.And] tokens current with
      | (true, current) =>
          let operator := previousP tokens current
          match equality fuel tokens current with
          | .err e => .err e
          | .fuelOut => .fuelOut
          | .ok right current => andLoop fuel tokens current (.Logical expr operator right)
      | (false, current) => .ok expr current
termination_by structural fuel _ _ _ => fuel

/-- `Parser::equality`. -/
def equality : Nat → List Token → Nat → PRes Expr
  | 0, _, _ => .fuelOut
  | fuel + 1, tokens, current =>
      match comparison fuel tokens current with
      | .err e => .err e
      | .fuelOut => .fuelOut
      | .ok expr current => equalityLoop fuel tokens current expr
termination_by structural fuel _ _ => fuel

/-- The `while self.matches(&[BangEqual, EqualEqual])` loop. -/
def equalityLoop : Nat → List Token → Nat → Expr → PRes Expr
  | 0, _, _, _ => .fuelOut
  | fuel + 1, tokens, current, expr =>
      match matchesP [.BangEqual, .EqualEqual] tokens current with
      | (true, current) =>
          let operator := previousP tokens current
          match comparison fuel tokens current with
          | .err e => .err e
          | .fuelOut => .fuelOut
          | .ok right current => equalityLoop fuel tokens current (.Binary expr operator right)
      | (false, current) => .ok expr current
termination_by structural fuel _ _ _ => fuel

/-- `Parser::comparison`. -/
def comparison : Nat → List Token → Nat → PRes Expr
  | 0, _, _ => .fuelOut
  | fuel + 1, tokens, current =>
      match term fuel tokens current with
      | .err e => .err e
      | .fuelOut => .fuelOut
      | .ok expr current => comparisonLoop fuel tokens current expr
termination_by structural fuel _ _ => fuel

/-- The `while self.matches(&[Greater, GreaterEqual, Less, LessEqual])` loop. -/
def comparisonLoop : Nat → List Token → Nat → Expr → PRes Expr
  | 0, _, _, _ => .fuelOut
  | fuel + 1, tokens, current, expr =>
      match matchesP [.Greater, .GreaterEqual, .Less, .LessEqual] tokens current with
      | (true, current) =>
          let operator := previousP tokens current
          match term fuel tokens current with
          | .err e => .err e
          | .fuelOut => .fuelOut
          | .ok right current => comparisonLoop fuel tokens current (.Binary expr operator right)
      | (false, current) => .ok expr current
termination_by structural fuel _ _ _ => fuel

/-- `Parser::term`. -/
def term : Nat → List Token → Nat → PRes Expr
  | 0, _, _ => .fuelOut
  | fuel + 1, tokens, current =>
      match factor fuel tokens current with
      | .err e => .err e
      | .fuelOut => .fuelOut
      | .ok expr current => termLoop fuel tokens current expr
termination_by structural fuel _ _ => fuel

/-- The `while self.matches(&[Minus, Plus])` loop. -/
def termLoop : Nat → List Token → Nat → Expr → PRes Expr
  | 0, _, _, _ => .fuelOut
  | fuel + 1, tokens, current, expr =>
      match matchesP [.Minus, .Plus] tokens current with
      | (true, current) =>
          let operator := previousP tokens current
          match factor fuel tokens current with
          | .err e => .err e
          | .fuelOut => .fuelOut
          | .ok right current => termLoop fuel tokens current (.Binary expr operator right)
      | (false, current) => .ok expr current
termination_by structural fuel _ _ _ => fuel

/-- `Parser::factor`. -/
def factor : Nat → List Token → Nat → PRes Expr
  | 0, _, _ => .fuelOut
  | fuel + 1, tokens, current =>
      match unary fuel tokens current with
      | .err e => .err e
      | .fuelOut => .fuelOut
      | .ok expr current => factorLoop fuel tokens current expr
termination_by structural fuel _ _ => fuel

/-- The `while self.matches(&[Slash, Star])` loop. -/
def factorLoop : Nat → List Token → Nat → Expr → PRes Expr
  | 0, _, _, _ => .fuelOut
  | fuel + 1, tokens, current, expr =>
      match matchesP [.Slash, .Star] tokens current with
      | (true, current) =>
          let operator := previousP tokens current
          match unary fuel tokens current with
          | .err e => .err e
          | .fuelOut => .fuelOut
          | .ok right current => factorLoop fuel tokens current (.Binary expr operator right)
      | (false, current) => .ok expr current
termination_by structural fuel _ _ _ => fuel

/-- `Parser::unary`. -/
def unary : Nat → List Token → Nat → PRes Expr
  | 0, _, _ => .fuelOut
  | fuel + 1, tokens, current =>
      match matchesP [.Bang, .Minus] tokens current with
      | (true, current) =>
          let operator := previousP tokens current
          match unary fuel tokens current with
          | .err e => .err e
          | .fuelOut => .fuelOut
          | .ok right current => .ok (.Unary operator right) current
      | (false, current) => primary fuel tokens current
termination_by structural fuel _ _ => fuel

/-- `Parser::primary`: grouping, identifier, or literal — the grammar has
no call production. -/
def primary : Nat → List Token → Nat → PRes Expr
  | 0, _, _ => .fuelOut
  | fuel + 1, tokens, current =>
      match matchesP [.LeftParen] tokens current with
      | (true, current) =>
          match expression fuel tokens current with
          | .err e => .err e
          | .fuelOut => .fuelOut
          | .ok expr current =>
              match consumeP .RightParen "Expect ')' after expression.".toList tokens current with
              | .err e => .err e
              | .fuelOut => .fuelOut
              | .ok _ current => .ok (.Grouping expr) current
      | (false, current) =>
      match matchesP [.Identifier] tokens current with
      | (true, current) => .ok (.Variable (previousP tokens current)) current
      | (false, current) => literal fuel tokens current
termination_by structural fuel _ _ => fuel

/-- `Parser::literal`. -/
def literal : Nat → List Token → Nat → PRes Expr
  | 0, _, _ => .fuelOut
  | _ + 1, tokens, current =>
      match matchesP [.False, .True, .Nil, .Number, .String] tokens current with
      | (true, current) =>
          match convert_token_literal (previousP tokens current) with
          | .ok l => .ok (.Literal l) current
          | .error e => .err e
      | (false, _) => .err ⟨"Expect expression.".toList, (peekP tokens current).line⟩

end

/-- The `while !self.is_at_end()` loop of `Parser::parse`. -/
def parseLoop : Nat → List Token → Nat → List Stmt → PRes (List Stmt)
  | 0, _, _, _ => .fuelOut
  | fuel + 1, tokens, current, acc =>
      if !is_at_endP tokens current then
        match declaration fuel tokens current with
        | .err e => .err e
        | .fuelOut => .fuelOut
        | .ok stmt current => parseLoop fuel tokens current (acc ++ [stmt])
      else .ok acc current

/-- `Parser::parse` on a fresh parser. -/
def parse (fuel : Nat) (tokens : List Token) : PRes (List Stmt) :=
  parseLoop fuel tokens 0 []

/-! ## Runtime values and errors (src/interpreter.rs) -/

/-- An environment is an address into the store's heap of scopes,
modelling `Rc<Environment>` shared ownership. -/
abbrev Addr := Nat

/-- `Value` from src/interpreter.rs.  A `NativeFunction` carries the Rust
`fn() -> Value` it wraps; a `Function` carries its captured closure
environment by address. -/
inductive Value
  | Number (n : LoxNum)
  | String (s : Str)
  | Bool (b : Bool)
  | Nil
  | NativeFunction (f : Unit → Value)
  | Function (name : Str) (params : List Token) (body : List Stmt) (closure : Addr)

/-- `RuntimeError` from src/interpreter.rs: a genuine error, or the
return-carrying signal sent through the same channel. -/
inductive RuntimeError
  | Error (message : Str) (line : Nat)
  | Return (value : Value)

/-- A non-value outcome of execution: the program's own `RuntimeError`, a
Rust panic, or exhaustion of the model's fuel. -/
inductive Sig
  | rerr (e : RuntimeError)
  | panicked (msg : Str)
  | fuelOut

/-- One `Environment` node from src/environment.rs: the binding map and
the optional enclosing scope. -/
structure Scope where
  values : List (Str × Option Value)
  enclosing : Option Addr

/-- The runtime state: every allocated scope, plus the text printed so far
(`print` output is recorded as the sequence of printed values). -/
structure Store where
  heap : List Scope
  output : List Value

/-! ## Environment (src/environment.rs), store-passing -/

/-- `HashMap::insert`: replace the binding if the key is present,
otherwise add it. -/
def insertVal : List (Str × Option Value) → Str → Option Value → List (Str × Option Value)
  | [], name, value => [(name, value)]
  | (k, v) :: rest, name, value =>
      if k = name then (name, value) :: rest else (k, v) :: insertVal rest name value

/-- `HashMap::get`: the first binding for the key, if any. -/
def lookupVal (values : List (Str × Option Value)) (name : Str) : Option (Option Value) :=
  (values.find? (fun p => p.1 = name)).map (·.2)

namespace Environment

/-- Read a scope out of the store. -/
def scopeAt (s : Store) (a : Addr) : Option Scope := s.heap.get? a

/-- Replace a scope in the store. -/
def setScope (s : Store) (a : Addr) (sc : Scope) : Store :=
  { s with heap := s.heap.set a sc }

/-- `Environment::new`: allocate a fresh scope with the given enclosing
link; returns the updated store and the new scope's address. -/
def new (s : Store) (enclosing : Option Addr) : Store × Addr :=
  ({ s with heap := s.heap ++ [⟨[], enclosing⟩] }, s.heap.length)

/-- `Environment::define`: insert or overwrite in this scope only. -/
def define (s : Store) (a : Addr) (name : Str) (value : Option Value) : Store :=
  match scopeAt s a with
  | some sc => setScope s a { sc with values := insertVal sc.values name value }
  | none => s

/-- `Environment::get`: this scope, then the enclosing chain outward.  The
fuel bounds the chain walk (an `Rc` chain in Rust is finite and acyclic);
`panicked` marks a dangling address, which shared `Rc` ownership rules
out. -/
def get : Nat → Store → Addr → Token → Except Sig (Option Value)
  | 0, _, _, _ => .error .fuelOut
  | fuel + 1, s, a, name =>
      match scopeAt s a with
      | none => .error (.panicked "dangling environment".toList)
      | some sc =>
          match lookupVal sc.values name.lexeme with
          | some value => .ok value
          | none =>
              match sc.enclosing with
              | some p => get fuel s p name
              | none =>
                  .error (.rerr (.Error
                    ("Undefined variable '".toList ++ name.lexeme ++ "'.".toList)
                    name.line))

/-- `Environment::assign`: mutate the first scope outward that already
defines the name; error without touching the store when none does. -/
def assign : Nat → Store → Addr → Token → Option Value → Except Sig Store
  | 0, _, _, _, _ => .error .fuelOut
  | fuel + 1, s, a, name, value =>
      match scopeAt s a with
      | none => .error (.panicked "dangling environment".toList)
      | some sc =>
          if (lookupVal sc.values name.lexeme).isSome then
            .ok (setScope s a { sc with values := insertVal sc.values name.lexeme value })
          else
            match sc.enclosing with
            | some p => assign fuel s p name value
            | none =>
                .error (.rerr (.Error
                  ("Undefined variable '".toList ++ name.lexeme ++ "'.".toList)
                  name.line))

end Environment

/-! ## Interpreter (src/interpreter.rs) -/

/-- `Interpreter::is_truthy`: `false` and `nil` are falsy, all else truthy. -/
def is_truthy : Value → Bool
  | .Bool b => b
  | .Nil => false
  | _ => true

/-- `Interpreter::is_number`. -/
def is_number : Value → Bool
  | .Number _ => true
  | _ => false

/-- `Interpreter::is_string`. -/
def is_string : Value → Bool
  | .String _ => true
  | _ => false

/-- `Interpreter::get_number`; on a non-number Rust panics, which the
`is_number` guards at every call site make unreachable (the default `0`
here is never observable). -/
def get_number : Value → LoxNum
  | .Number n => n
  | _ => 0

/-- `Interpreter::get_string`, same remark as `get_number`. -/
def get_string : Value → Str
  | .String s => s
  | _ => []

/-- `Interpreter::compare_values`: numeric comparison, or a runtime error
whose line is the literal `0` from the source. -/
def compare_values (l r : Value) (cmp : LoxNum → LoxNum → Bool) : Except Sig Value :=
  match l, r with
  | .Number a, .Number b => .ok (.Bool (cmp a b))
  | _, _ => .error (.rerr (.Error "Operands must be numbers.".toList 0))

/-- `Interpreter::compare_equality`: epsilon-tolerant on two numbers,
exact on two strings, bools, or nils, `false` on every other pairing. -/
def compare_equality (l r : Value) : Bool :=
  match l, r with
  | .Number a, .Number b => LoxNum.blt (LoxNum.abs (LoxNum.sub a b)) LoxNum.epsilon
  | .String a, .String b => a == b
  | .Bool a, .Bool b => a == b
  | .Nil, .Nil => true
  | _, _ => false

/-- The binary-operator dispatch of `Interpreter::evaluate`
(`Expr::Binary`), as a function of the two already-evaluated operands. -/
def applyBinary (op : Token) (l r : Value) : Except Sig Value :=
  match op.token_type with
  | .Plus =>
      if is_number l && is_number r then
        .ok (.Number (LoxNum.add (get_number l) (get_number r)))
      else if is_string l && is_string r then
        .ok (.String (get_string l ++ get_string r))
      else .error (.rerr (.Error "Operands must be two numbers or two strings.".toList op.line))
  | .Minus =>
      if is_number l && is_number r then
        .ok (.Number (LoxNum.sub (get_number l) (get_number r)))
      else .error (.rerr (.Error "Operands must be numbers.".toList op.line))
  | .Star =>
      if is_number l && is_number r then
        .ok (.Number (LoxNum.mul (get_number l) (get_number r)))
      else .error (.rerr (.Error "Operands must be numbers.".toList op.line))
  | .Slash =>
      if is_number l && is_number r then
        if LoxNum.isZero (get_number r) then
          .error (.rerr (.Error "Division by zero.".toList op.line))
        else .ok (.Number (LoxNum.div (get_number l) (get_number r)))
      else .error (.rerr (.Error "Operands must be numbers.".toList op.line))
  | .Greater => compare_values l r (fun a b => LoxNum.blt b a)
  | .GreaterEqual => compare_values l r (fun a b => LoxNum.ble b a)
  | .Less => compare_values l r (fun a b => LoxNum.blt a b)
  | .LessEqual => compare_values l r (fun a b => LoxNum.ble a b)
  | .EqualEqual => .ok (.Bool (compare_equality l r))
  | .BangEqual => .ok (.Bool (!compare_equality l r))
  | _ => .error (.rerr (.Error "Unimplemented".toList op.line))

/-- The unary-operator dispatch of `Interpreter::evaluate`
(`Expr::Unary`), as a function of the evaluated operand; the catch-all arm
returns the string `"Not implemented"` as in the source. -/
def applyUnary (op : Token) (right : Value) : Except Sig Value :=
  match op.token_type with
  | .Minus =>
      match right with
      | .Number n => .ok (.Number (LoxNum.neg n))
      | _ => .error (.rerr (.Error "Invalid operand for unary operator".toList op.line))
  | .Bang => .ok (.Bool (!is_truthy right))
  | _ => .ok (.String "Not implemented".toList)

/-- The literal arm of `Interpreter::evaluate`. -/
def literalValue : Literal → Value
  | .Number n => .Number n
  | .String s => .String s
  | .Bool b => .Bool b
  | .Nil => .Nil

mutual

/-- `Interpreter::execute`, arm by arm. -/
def execute : Nat → Stmt → Addr → Store → Store × Except Sig Unit
  | 0, _, _, s => (s, .error .fuelOut)
  | fuel + 1, stmt, env, s =>
      match stmt with
      | .Print e =>
          match evaluate fuel e env s with
          | (s, .ok value) => ({ s with output := s.output ++ [value] }, .ok ())
          | (s, .error e) => (s, .error e)
      | .Expression e =>
          match evaluate fuel e env s with
          | (s, .ok _) => (s, .ok ())
          | (s, .error e) => (s, .error e)
      | .Var name initializer =>
          let step : Store × Except Sig Value :=
            match initializer with
            | some e => evaluate fuel e env s
            | none => (s, .ok .Nil)
          match step with
          | (s, .ok val) => (Environment.define s env name.lexeme (some val), .ok ())
          | (s, .error e) => (s, .error e)
      | .Block stmts => execute_block fuel stmts env s
      | .If condition then_branch else_branch =>
          match evaluate fuel condition env s with
          | (s, .ok c) =>
              if is_truthy c then execute fuel then_branch env s
              else
                match else_branch with
                | some eb => execute fuel eb env s
                | none => (s, .ok ())
          | (s, .error e) => (s, .error e)
      | .While condition body =>
          match evaluate fuel condition env s with
          | (s, .ok condi) => whileGo fuel condition body env condi s
          | (s, .error e) => (s, .error e)
      | .For initializer condition increment body =>
          let initStep : Store × Except Sig Unit :=
            match initializer with
            | some stmt => execute fuel stmt env s
            | none => (s, .ok ())
          match initStep with
          | (s, .ok _) =>
              (match condition with
               | some c =>
                   match evaluate fuel c env s with
                   | (s, .ok condi) => forGo fuel c increment body env condi s
                   | (s, .error e) => (s, .error e)
               | none => execute fuel body env s)
          | (s, .error e) => (s, .error e)
      | .Function name params body =>
          let function := Value.Function name.lexeme params body env
          (Environment.define s env name.lexeme (some function), .ok ())
      | .Return e =>
          let step : Store × Except Sig Value :=
            match e with
            | some e => evaluate fuel e env s
            | none => (s, .ok .Nil)
          match step with
          | (s, .ok value) => (s, .error (.rerr (.Return value)))
          | (s, .error e) => (s, .error e)

termination_by structural fuel _ _ _ => fuel

/-- The `while self.is_truthy(&condi)` loop of the `Stmt::While` arm; `v`
is the most recently evaluated condition value. -/
def whileGo : Nat → Expr → Stmt → Addr → Value → Store → Store × Except Sig Unit
  | 0, _, _, _, _, s => (s, .error .fuelOut)
  | fuel + 1, condition, body, env, v, s =>
      if is_truthy v then
        match execute fuel body env s with
        | (s, .ok _) =>
            match evaluate fuel condition env s with
            | (s, .ok v) => whileGo fuel condition body env v s
            | (s, .error e) => (s, .error e)
        | (s, .error e) => (s, .error e)
      else (s, .ok ())

termination_by structural fuel _ _ _ _ _ => fuel

/-- The `while self.is_truthy(&condi)` loop of the `Stmt::For` arm: body,
then the increment expression if present, then the condition again. -/
def forGo : Nat → Expr → Option Expr → Stmt → Addr → Value → Store → Store × Except Sig Unit
  | 0, _, _, _, _, _, s => (s, .error .fuelOut)
  | fuel + 1, condition, increment, body, env, v, s =>
      if is_truthy v then
        match execute fuel body env s with
        | (s, .ok _) =>
            let incStep : Store × Except Sig Unit :=
              match increment with
              | some inc =>
                  match evaluate fuel inc env s with
                  | (s, .ok _) => (s, .ok ())
                  | (s, .error e) => (s, .error e)
              | none => (s, .ok ())
            match incStep with
            | (s, .ok _) =>
                match evaluate fuel condition env s with
                | (s, .ok v) => forGo fuel condition increment body env v s
                | (s, .error e) => (s, .error e)
            | (s, .error e) => (s, .error e)
        | (s, .error e) => (s, .error e)
      else (s, .ok ())

termination_by structural fuel _ _ _ _ _ _ => fuel

/-- The statement loop shared by `Interpreter::interpret` and
`Interpreter::execute_block`: execute each statement in order, stopping at
the first non-normal outcome. -/
def execList : Nat → List Stmt → Addr → Store → Store × Except Sig Unit
  | 0, _, _, s => (s, .error .fuelOut)
  | _ + 1, [], _, s => (s, .ok ())
  | fuel + 1, stmt :: rest, env, s =>
      match execute fuel stmt env s with
      | (s, .ok _) => execList fuel rest env s
      | (s, .error e) => (s, .error e)

termination_by structural fuel _ _ _ => fuel

/-- `Interpreter::execute_block`: one fresh child environment for the
whole block, then the statement loop under it. -/
def execute_block : Nat → List Stmt → Addr → Store → Store × Except Sig Unit
  | 0, _, _, s => (s, .error .fuelOut)
  | fuel + 1, stmts, env, s =>
      let (s, child) := Environment.new s (some env)
      execList fuel stmts child s

termination_by structural fuel _ _ _ => fuel

/-- The `for (param, arg) in params.iter().zip(arguments)` loop of the
call arm: evaluate each argument in the *caller's* environment, bind it
into the fresh function environment. -/
def evalBind : Nat → List (Token × Expr) → Addr → Addr → Store → Store × Except Sig Unit
  | 0, _, _, _, s => (s, .error .fuelOut)
  | _ + 1, [], _, _, s => (s, .ok ())
  | fuel + 1, (param, arg) :: rest, env, func_env, s =>
      match evaluate fuel arg env s with
      | (s, .ok value) =>
          evalBind fuel rest env func_env (Environment.define s func_env param.lexeme (some value))
      | (s, .error e) => (s, .error e)

termination_by structural fuel _ _ _ _ => fuel

/-- `Interpreter::evaluate`, arm by arm. -/
def evaluate : Nat → Expr → Addr → Store → Store × Except Sig Value
  | 0, _, _, s => (s, .error .fuelOut)
  | fuel + 1, expr, env, s =>
      match expr with
      | .Literal lit => (s, .ok (literalValue lit))
      | .Grouping e => evaluate fuel e env s
      | .Unary op e =>
          match evaluate fuel e env s with
          | (s, .ok right) => (s, applyUnary op right)
          | (s, .error e) => (s, .error e)
      | .Binary le op re =>
          match evaluate fuel le env s with
          | (s, .ok l) =>
              match evaluate fuel re env s with
              | (s, .ok r) => (s, applyBinary op l r)
              | (s, .error e) => (s, .error e)
          | (s, .error e) => (s, .error e)
      | .Variable name =>
          (match Environment.get fuel s env name with
           | .ok (some v) => (s, .ok v)
           | .ok none => (s, .error (.panicked "unwrap on None".toList))
           | .error e => (s, .error e))
      | .Assign name e =>
          match evaluate fuel e env s with
          | (s, .ok value) =>
              (match Environment.assign fuel s env name (some value) with
               | .ok s => (s, .ok value)
               | .error e => (s, .error e))
          | (s, .error e) => (s, .error e)
      | .Logical le op re =>
          match evaluate fuel le env s with
          | (s, .ok left_expr) =>
              (match op.token_type with
               | .Or =>
                   if is_truthy left_expr then (s, .ok left_expr)
                   else evaluate fuel re env s
               | .And =>
                   if !is_truthy left_expr then (s, .ok left_expr)
                   else evaluate fuel re env s
               | _ => (s, .error (.rerr (.Error "Not implemented".toList op.line))))
          | (s, .error e) => (s, .error e)
      | .Call callee paren arguments =>
          match evaluate fuel callee env s with
          | (s, .ok val) =>
              (match val with
               | .NativeFunction f =>
                   if !arguments.isEmpty then
                     (s, .error (.rerr (.Error
                       "Native function Expected 0 arguments.".toList paren.line)))
                   else (s, .ok (f ()))
               | .Function _ params body closure =>
                   if arguments.length ≠ params.length then
                     (s, .error (.rerr (.Error
                       ("Expected ".toList ++ (toString params.length).toList
                         ++ " arguments but got ".toList
                         ++ (toString arguments.length).toList ++ ". ".toList)
                       paren.line)))
                   else
                     let (s, func_env) := Environment.new s (some closure)
                     match evalBind fuel (params.zip arguments) env func_env s with
                     | (s, .ok _) =>
                         (match execute_block fuel body func_env s with
                          | (s, .ok _) => (s, .ok .Nil)
                          | (s, .error (.rerr (.Return v))) => (s, .ok v)
                          | (s, .error e) => (s, .error e))
                     | (s, .error e) => (s, .error e)
               | _ => (s, .error (.rerr (.Error "Can only call functions.".toList paren.line))))
          | (s, .error e) => (s, .error e)
termination_by structural fuel _ _ _ => fuel

end

/-- `Interpreter::interpret`: each top-level statement under the root
environment (address `0`). -/
def interpret (fuel : Nat) (stmts : List Stmt) (s : Store) : Store × Except Sig Unit :=
  execList fuel stmts 0 s

/-- `Interpreter::new`: a single root scope holding the native `clock`
binding.  Reading the system clock is I/O, so the `fn() -> Value` it wraps
is a parameter here. -/
def Interpreter.new (clock : Unit → Value) : Store :=
  ⟨[⟨[("clock".toList, some (.NativeFunction clock))], none⟩], []⟩

/-! ## The `run` subcommand of main.rs -/

/-- One line printed to standard error by the `run` branch of `main`
(each is displayed via the corresponding `Display` impl as
`[line N] Error: message`). -/
inductive StderrLine
  | parseErr (e : ParseError)
  | runtimeErr (e : RuntimeError)

/-- The `run` branch of `main` in src/main.rs: scan (the returned lexical
error list is never consulted), parse (a `ParseError` prints one message
and exits 65), interpret (a `RuntimeError` prints one message and exits
70), else exit 0.  The result is `(exit code, stderr lines)`; `none`
models a crash (panic) or fuel exhaustion rather than a normal exit. -/
def runCmd (fuel : Nat) (rt : Str → Option Str) (clock : Unit → Value)
    (source : Str) : Option (Nat × List StderrLine) :=
  match Scanner.scan_tokens rt source with
  | .panicked _ => none
  | .fuelOut => none
  | .ok tokens _errors =>
      match parse fuel tokens with
      | .fuelOut => none
      | .err e => some (65, [.parseErr e])
      | .ok stmts _ =>
          match interpret fuel stmts (Interpreter.new clock) with
          | (_, .ok _) => some (0, [])
          | (_, .error (.rerr e)) => some (70, [.runtimeErr e])
          | (_, .error _) => none

/-! ## Claim theorems -/

/-- The token sequence the scanner produces for the source `fun f() {}`. -/
def funToks : List Token :=
  [ ⟨.Fun, "fun".toList, none, 1⟩, ⟨.Identifier, "f".toList, none, 1⟩
  , ⟨.LeftParen, "(".toList, none, 1⟩, ⟨.RightParen, ")".toList, none, 1⟩
  , ⟨.LeftBrace, "\x7b".toList, none, 1⟩, ⟨.RightBrace, "\x7d".toList, none, 1⟩
  , ⟨.Eof, [], none, 1⟩ ]

theorem scan_funToks (rt : Str → Option Str) :
    Scanner.scan_tokens rt "fun f() \x7b\x7d".toList = .ok funToks [] := rfl

theorem parse_funToks : parse 20 funToks = .err ⟨"Expect expression.".toList, 1⟩ := by
  simp [parse, parseLoop, declaration, statement, print_statement, expression_stmt,
    expression, assignment, orExpr, andExpr, equality, comparison, term, factor,
    unary, primary, literal, orLoop, andLoop, equalityLoop, comparisonLoop,
    termLoop, factorLoop, matchesP, checkP, is_at_endP, peekP, previousP, consumeP,
    funToks, convert_token_literal]

/-- C1: the spec claims the statement grammar recognizes function
declarations and `return` statements, and that a source text declaring a
recursive function parses and runs; but `Parser::declaration` /
`Parser::statement` have no `fun` or `return` production (and the
expression grammar no call production), so running the source
`fun f() {}` reaches the `Expect expression.` parse error and exits 65
instead of executing the declaration. -/
theorem C1_function_declaration_does_not_parse (rt : Str → Option Str)
    (clock : Unit → Value) :
    runCmd 20 rt clock "fun f() \x7b\x7d".toList =
      some (65, [.parseErr ⟨"Expect expression.".toList, 1⟩]) := by
  unfold runCmd
  rw [scan_funToks]
  simp only [parse_funToks]

/-- C2: the spec claims the `run` subcommand prints all accumulated
lexical error messages and exits 65 whenever scanning produced a non-empty
error list; but the `run` branch of `main` never consults the scanner's
error list, so the source `"@"` — whose scan accumulates exactly one
lexical error — parses as the empty program, prints nothing to standard
error, and exits 0. -/
theorem C2_run_ignores_lexical_errors (fuel : Nat) (rt : Str → Option Str)
    (clock : Unit → Value) :
    Scanner.scan_tokens rt "@".toList =
        .ok [Token.mk .Eof [] none 1] [⟨"Unexpected character: @".toList, 1⟩] ∧
      runCmd (fuel + 1) rt clock "@".toList = some (0, []) :=
  ⟨rfl, rfl⟩

/-- C8: the spec claims scanning terminates on every input with a single
end-of-file token; but `Scanner` compares a character cursor against the
byte length of the source and byte-slices with character indices, so on
the one-character input `é` (two UTF-8 bytes) `Scanner::identifier`
slices `&source[0..1]` inside the character and panics instead of
producing any token list. -/
theorem C8_scan_panics_on_non_ascii (rt : Str → Option Str) :
    Scanner.scan_tokens rt ['é'] =
      .panicked "byte index is not a char boundary".toList := rfl

/-- `Scanner::number`'s digit loop only moves the cursor: it never touches
the token list. -/
theorem digitLoop_tokens (fuel : Nat) (st : Scanner) :
    (Scanner.digitLoop fuel st).tokens = st.tokens := by
  induction fuel generalizing st with
  | zero => rfl
  | succ fuel ih =>
      rw [Scanner.digitLoop]
      split
      · exact ih _
      · rfl

set_option maxHeartbeats 1000000 in
/-- C9: every token `Scanner::number` produces is a `Number` token whose
literal payload contains a decimal point — the round-tripped text is kept
when it already has one and otherwise gains a `.0` suffix — and on the
integral input `3` the scan yields the literal text `3.0`. -/
theorem C9_number_literal_contains_decimal_point :
    (∀ (rt : Str → Option Str) (st out : Scanner) (tok : Token),
       Scanner.number rt st = .ok out →
       out.tokens = st.tokens ++ [tok] →
       tok.token_type = .Number ∧ tok.literal ≠ none ∧ '.' ∈ tok.literal.getD []) ∧
    Scanner.scan_tokens (fun s => some s) ['3'] =
      .ok [⟨.Number, ['3'], some ['3', '.', '0'], 1⟩, ⟨.Eof, [], none, 1⟩] [] := by
  constructor
  · intro rt st out tok h hteq
    simp only [Scanner.number] at h
    split at h
    · exact absurd h (by simp)
    · split at h
      · exact absurd h (by simp)
      · rename_i v hv
        simp only [Except.ok.injEq] at h
        subst h
        simp only [Scanner.add_token] at hteq
        split at hteq <;>
        · simp only [digitLoop_tokens] at hteq
          have h2 := List.append_cancel_left hteq
          simp only [List.cons.injEq, and_true] at h2
          subst h2
          refine ⟨rfl, by simp, ?_⟩
          by_cases hdot : '.' ∈ v <;> simp [hdot]
  · rfl

set_option maxHeartbeats 1000000 in
/-- C9 witness: the theorem applied to the concrete scan of the source
`3` (with the identity `f64` round-trip, which is what Rust computes on
this input): the produced `Number` token carries the literal `3.0`. -/
theorem C9_number_literal_witness :
    (Token.mk .Number ['3'] (some ['3', '.', '0']) 1).token_type = .Number ∧
      (Token.mk .Number ['3'] (some ['3', '.', '0']) 1).literal ≠ none ∧
      '.' ∈ ((Token.mk .Number ['3'] (some ['3', '.', '0']) 1)).literal.getD [] :=
  C9_number_literal_contains_decimal_point.1 (fun s => some s)
    ⟨['3'], [], 0, 1, 1, []⟩
    ⟨['3'], [⟨.Number, ['3'], some ['3', '.', '0'], 1⟩], 0, 1, 1, []⟩
    ⟨.Number, ['3'], some ['3', '.', '0'], 1⟩ rfl rfl

/-- The discriminating kind of a runtime value (number, string, bool, nil,
native function, declared function). -/
def valueKind : Value → Nat
  | .Number _ => 0
  | .String _ => 1
  | .Bool _ => 2
  | .Nil => 3
  | .NativeFunction _ => 4
  | .Function _ _ _ _ => 5

/-- C6: equality comparison — two numbers are compared with the epsilon
tolerance `|l - r| < f64::EPSILON`; two strings, two bools, or two nils
exactly; operands of differing kinds always compare unequal; and the
`==` / `!=` dispatch always produces a boolean value, never an error. -/
theorem C6_equality_semantics :
    (∀ a b : LoxNum, compare_equality (.Number a) (.Number b) =
       LoxNum.blt (LoxNum.abs (LoxNum.sub a b)) LoxNum.epsilon) ∧
    (∀ s t : Str, compare_equality (.String s) (.String t) = (s == t)) ∧
    (∀ a b : Bool, compare_equality (.Bool a) (.Bool b) = (a == b)) ∧
    (compare_equality .Nil .Nil = true) ∧
    (∀ v w : Value, valueKind v ≠ valueKind w → compare_equality v w = false) ∧
    (∀ (op : Token) (l r : Value), op.token_type = .EqualEqual →
       applyBinary op l r = .ok (.Bool (compare_equality l r))) ∧
    (∀ (op : Token) (l r : Value), op.token_type = .BangEqual →
       applyBinary op l r = .ok (.Bool (!compare_equality l r))) := by
  refine ⟨fun a b => rfl, fun s t => rfl, fun a b => rfl, rfl, ?_, ?_, ?_⟩
  · intro v w hk
    cases v <;> cases w <;> first
      | rfl
      | exact absurd rfl hk
  · intro op l r h
    simp [applyBinary, h]
  · intro op l r h
    simp [applyBinary, h]

/-- C6 witness: the theorem applied at concrete inputs — `nil == 1` is
unequal without an error, and a concrete `==` dispatch yields a boolean. -/
theorem C6_equality_semantics_witness :
    compare_equality .Nil (.Number 1) = false ∧
    applyBinary ⟨.EqualEqual, "==".toList, none, 1⟩ (.Number 1) (.Number 2) =
      .ok (.Bool (compare_equality (.Number 1) (.Number 2))) :=
  ⟨C6_equality_semantics.2.2.2.2.1 .Nil (.Number 1) (by simp [valueKind]),
   C6_equality_semantics.2.2.2.2.2.1 ⟨.EqualEqual, "==".toList, none, 1⟩
     (.Number 1) (.Number 2) rfl⟩

/-- C7: the `-`, `*`, `/` arms demand two numeric operands and raise
`Operands must be numbers.` at the operator's line otherwise; `/` with a
numeric zero right operand raises `Division by zero.` instead of
producing a value. -/
theorem C7_arithmetic_operand_errors :
    (∀ (op : Token) (l r : Value),
       (op.token_type = .Minus ∨ op.token_type = .Star ∨ op.token_type = .Slash) →
       (is_number l && is_number r) = false →
       applyBinary op l r =
         .error (.rerr (.Error "Operands must be numbers.".toList op.line))) ∧
    (∀ (op : Token) (l : Value) (n : LoxNum),
       op.token_type = .Slash → is_number l = true → LoxNum.isZero n = true →
       applyBinary op l (.Number n) =
         .error (.rerr (.Error "Division by zero.".toList op.line))) := by
  constructor
  · intro op l r hop hnum
    rcases hop with h | h | h <;> simp [applyBinary, h, hnum]
  · intro op l n hop hl hz
    cases l <;> simp_all [applyBinary, is_number, get_number]

/-- The chain of scopes reachable from an environment by following
`enclosing` links outward, with fuel bounding the walk (`none` when the
walk does not complete within the fuel or meets a dangling address). -/
def chainScopes : Nat → Store → Option Addr → Option (List (Addr × Scope))
  | _, _, none => some []
  | 0, _, some _ => none
  | fuel + 1, s, some a =>
      match Environment.scopeAt s a with
      | none => none
      | some sc => (chainScopes fuel s sc.enclosing).map ((a, sc) :: ·)

/-- Stated from the spec's words, for comparison with `Environment.get`
and `Environment.assign`: the first scope of the chain — innermost to
outermost — that already defines the name. -/
def searchChain : List (Addr × Scope) → Str → Option (Addr × Scope)
  | [], _ => none
  | (a, sc) :: rest, name =>
      if (lookupVal sc.values name).isSome then some (a, sc) else searchChain rest name

/-- The `Undefined variable 'name'.` runtime error raised by the
environment chain walks. -/
def undefinedVariable (name : Token) : Sig :=
  .rerr (.Error ("Undefined variable '".toList ++ name.lexeme ++ "'.".toList) name.line)

/-- C5: `define` inserts or overwrites in the addressed (innermost) scope
only, leaving every other scope untouched; `get` and `assign` walk the
scope chain outward and act on the first scope that already binds the
name, failing with `UndefinedVariable` when none does; and `assign` never
changes the set of bound names of the scope it updates. -/
theorem C5_environment_scoping :
    (∀ (s : Store) (a : Addr) (name : Str) (v : Option Value) (sc : Scope),
       Environment.scopeAt s a = some sc →
       Environment.define s a name v =
         Environment.setScope s a ⟨insertVal sc.values name v, sc.enclosing⟩) ∧
    (∀ (s : Store) (a a' : Addr) (name : Str) (v : Option Value), a' ≠ a →
       Environment.scopeAt (Environment.define s a name v) a' =
         Environment.scopeAt s a') ∧
    (∀ (fuel : Nat) (s : Store) (a : Addr) (name : Token)
       (chain : List (Addr × Scope)),
       chainScopes fuel s (some a) = some chain →
       Environment.get fuel s a name =
         (match searchChain chain name.lexeme with
          | some (_, sc) => .ok ((lookupVal sc.values name.lexeme).getD none)
          | none => .error (undefinedVariable name))) ∧
    (∀ (fuel : Nat) (s : Store) (a : Addr) (name : Token) (v : Option Value)
       (chain : List (Addr × Scope)),
       chainScopes fuel s (some a) = some chain →
       Environment.assign fuel s a name v =
         (match searchChain chain name.lexeme with
          | some (addr, sc) =>
              .ok (Environment.setScope s addr ⟨insertVal sc.values name.lexeme v, sc.enclosing⟩)
          | none => .error (undefinedVariable name))) ∧
    (∀ (values : List (Str × Option Value)) (name : Str) (v : Option Value),
       (lookupVal values name).isSome →
       (insertVal values name v).map Prod.fst = values.map Prod.fst) := by
  refine ⟨?_, ?_, ?_, ?_, ?_⟩
  · intro s a name v sc h
    simp [Environment.define, h]
  · intro s a a' name v h
    simp only [Environment.define]
    split
    · simp [Environment.setScope, Environment.scopeAt, List.getElem?_set_ne (Ne.symm h)]
    · rfl
  · intro fuel
    induction fuel with
    | zero => intro s a name chain h; exact absurd h (by simp [chainScopes])
    | succ fuel ih =>
        intro s a name chain h
        rw [chainScopes] at h
        rw [Environment.get]
        cases hsc : Environment.scopeAt s a with
        | none => rw [hsc] at h; exact absurd h (by simp)
        | some sc =>
            rw [hsc] at h
            simp only [Option.map_eq_some'] at h
            obtain ⟨rest, hrest, rfl⟩ := h
            simp only [searchChain]
            cases hlv : lookupVal sc.values name.lexeme with
            | some value => simp [hlv]
            | none =>
                simp only [hlv, Option.isSome_none, Bool.false_eq_true, if_false]
                cases henc : sc.enclosing with
                | some p => rw [henc] at hrest; exact ih s p name rest hrest
                | none =>
                    rw [henc] at hrest
                    simp only [chainScopes, Option.some.injEq] at hrest
                    subst hrest
                    rfl
  · intro fuel
    induction fuel with
    | zero => intro s a name v chain h; exact absurd h (by simp [chainScopes])
    | succ fuel ih =>
        intro s a name v chain h
        rw [chainScopes] at h
        rw [Environment.assign]
        cases hsc : Environment.scopeAt s a with
        | none => rw [hsc] at h; exact absurd h (by simp)
        | some sc =>
            rw [hsc] at h
            simp only [Option.map_eq_some'] at h
            obtain ⟨rest, hrest, rfl⟩ := h
            simp only [searchChain]
            cases hlv : (lookupVal sc.values name.lexeme).isSome with
            | true => simp [hlv]
            | false =>
                simp only [hlv, Bool.false_eq_true, if_false]
                cases henc : sc.enclosing with
                | some p => rw [henc] at hrest; exact ih s p name v rest hrest
                | none =>
                    rw [henc] at hrest
                    simp only [chainScopes, Option.some.injEq] at hrest
                    subst hrest
                    rfl
  · intro values name v h
    induction values with
    | nil => simp [lookupVal] at h
    | cons p rest ih =>
        obtain ⟨k, w⟩ := p
        simp only [insertVal]
        by_cases hk : k = name
        · subst hk; simp
        · have h' : (lookupVal rest name).isSome := by
            simpa [lookupVal, List.find?, hk] using h
          simp [if_neg hk, ih h']

/-- A two-scope sample store used by the claim witnesses: scope 0 binds
`x`, scope 1 binds `y` and encloses into scope 0. -/
def sampleStore : Store :=
  ⟨[⟨[("x".toList, some (.Number 1))], none⟩,
    ⟨[("y".toList, some .Nil)], some 0⟩], []⟩

/-- The token for the name `x` used by the claim witnesses. -/
def xTok : Token := ⟨.Identifier, "x".toList, none, 1⟩

/-- C5 witness: the theorem applied to `sampleStore` — reading `x` from
the inner scope walks out to scope 0, assigning `x` updates scope 0 only,
defining `x` in the inner scope shadows without touching scope 0. -/
theorem C5_environment_scoping_witness :
    Environment.get 2 sampleStore 1 xTok = .ok (some (.Number 1)) ∧
    Environment.assign 2 sampleStore 1 xTok (some .Nil) =
      .ok (Environment.setScope sampleStore 0 ⟨[("x".toList, some .Nil)], none⟩) ∧
    Environment.define sampleStore 1 "x".toList (some .Nil) =
      Environment.setScope sampleStore 1
        ⟨[("y".toList, some .Nil), ("x".toList, some .Nil)], some 0⟩ ∧
    Environment.scopeAt (Environment.define sampleStore 1 "x".toList (some .Nil)) 0 =
      Environment.scopeAt sampleStore 0 := by
  refine ⟨?_, ?_, ?_, ?_⟩
  · exact (C5_environment_scoping.2.2.1 2 sampleStore 1 xTok
      [(1, ⟨[("y".toList, some .Nil)], some 0⟩), (0, ⟨[("x".toList, some (.Number 1))], none⟩)]
      rfl).trans (by rfl)
  · exact (C5_environment_scoping.2.2.2.1 2 sampleStore 1 xTok (some .Nil)
      [(1, ⟨[("y".toList, some .Nil)], some 0⟩), (0, ⟨[("x".toList, some (.Number 1))], none⟩)]
      rfl).trans (by rfl)
  · exact (C5_environment_scoping.1 sampleStore 1 "x".toList (some .Nil)
      ⟨[("y".toList, some .Nil)], some 0⟩ rfl).trans (by rfl)
  · exact C5_environment_scoping.2.1 sampleStore 1 0 "x".toList (some .Nil) (by simp)

/-- C7 witness: the theorem applied at concrete inputs — `1 - "a"` is a
type error and `1 / 0` is a division error. -/
theorem C7_arithmetic_operand_errors_witness :
    applyBinary ⟨.Minus, "-".toList, none, 1⟩ (.Number 1) (.String "a".toList) =
      .error (.rerr (.Error "Operands must be numbers.".toList 1)) ∧
    applyBinary ⟨.Slash, "/".toList, none, 1⟩ (.Number 1) (.Number ⟨0, 1⟩) =
      .error (.rerr (.Error "Division by zero.".toList 1)) :=
  ⟨C7_arithmetic_operand_errors.1 ⟨.Minus, "-".toList, none, 1⟩
     (.Number 1) (.String "a".toList) (.inl rfl) rfl,
   C7_arithmetic_operand_errors.2 ⟨.Slash, "/".toList, none, 1⟩
     (.Number 1) ⟨0, 1⟩ rfl rfl rfl⟩

/-- Does a result carry the return signal? -/
def isReturnSignal {α : Type} : Except Sig α → Bool
  | .error (.rerr (.Return _)) => true
  | _ => false

/-- The environment chain walk of `get` raises only `Error` (or a panic),
never a return signal. -/
theorem get_no_return (fuel : Nat) (s : Store) (a : Addr) (name : Token) :
    isReturnSignal (Environment.get fuel s a name) = false := by
  induction fuel generalizing a with
  | zero => rfl
  | succ fuel ih =>
      rw [Environment.get]
      cases Environment.scopeAt s a with
      | none => rfl
      | some sc =>
          dsimp only
          cases lookupVal sc.values name.lexeme with
          | some value => rfl
          | none =>
              dsimp only
              cases sc.enclosing with
              | some p => exact ih p
              | none => rfl

/-- The environment chain walk of `assign` raises only `Error` (or a
panic), never a return signal. -/
theorem assign_no_return (fuel : Nat) (s : Store) (a : Addr) (name : Token)
    (v : Option Value) :
    isReturnSignal (Environment.assign fuel s a name v) = false := by
  induction fuel generalizing a with
  | zero => rfl
  | succ fuel ih =>
      rw [Environment.assign]
      cases Environment.scopeAt s a with
      | none => rfl
      | some sc =>
          dsimp only
          by_cases hlv : (lookupVal sc.values name.lexeme).isSome
          · simp only [hlv, if_true]
            rfl
          · simp only [hlv, if_false]
            cases sc.enclosing with
            | some p => exact ih p
            | none => rfl

/-- Binary-operator dispatch raises only `Error`, never a return signal. -/
theorem applyBinary_no_return (op : Token) (l r : Value) :
    isReturnSignal (applyBinary op l r) = false := by
  unfold applyBinary compare_values
  split <;> first
    | rfl
    | (repeat' split) <;> rfl

/-- Unary-operator dispatch raises only `Error`, never a return signal. -/
theorem applyUnary_no_return (op : Token) (right : Value) :
    isReturnSignal (applyUnary op right) = false := by
  unfold applyUnary
  split <;> first
    | rfl
    | (repeat' split) <;> rfl

/-- Expression evaluation (and argument binding) never surfaces the
return signal: the only producer of `Return` is the `Stmt::Return` arm of
`execute`, and the only way `evaluate` runs statements is through the
call arm, which intercepts exactly that signal. -/
theorem evaluate_no_return (fuel : Nat) :
    (∀ (e : Expr) (env : Addr) (s : Store),
       isReturnSignal (evaluate fuel e env s).2 = false) ∧
    (∀ (ps : List (Token × Expr)) (env fe : Addr) (s : Store),
       isReturnSignal (evalBind fuel ps env fe s).2 = false) := by
  induction fuel with
  | zero => exact ⟨fun _ _ _ => rfl, fun _ _ _ _ => rfl⟩
  | succ fuel ih =>
      obtain ⟨ihe, ihb⟩ := ih
      constructor
      · intro e env s
        cases e with
        | Literal l => rfl
        | Grouping e => rw [evaluate]; exact ihe e env s
        | Unary op e =>
            rcases hsub : evaluate fuel e env s with ⟨sx, r⟩
            rw [evaluate, hsub]
            cases r with
            | ok v => exact applyUnary_no_return op v
            | error e1 =>
                have h := ihe e env s
                rw [hsub] at h
                exact h
        | Binary le op re =>
            rcases hl : evaluate fuel le env s with ⟨s1, rl⟩
            rw [evaluate, hl]
            cases rl with
            | error e1 =>
                have h := ihe le env s
                rw [hl] at h
                exact h
            | ok l =>
                dsimp only
                rcases hr : evaluate fuel re env s1 with ⟨s2, rr⟩
                cases rr with
                | error e1 =>
                    have h := ihe re env s1
                    rw [hr] at h
                    exact h
                | ok r => exact applyBinary_no_return op l r
        | Variable name =>
            rcases hg : Environment.get fuel s env name with e1 | v
            · rw [evaluate, hg]
              have h := get_no_return fuel s env name
              rw [hg] at h
              cases e1 with
              | panicked m => rfl
              | fuelOut => rfl
              | rerr re =>
                  cases re with
                  | Error m l => rfl
                  | Return v => exact absurd h (by simp [isReturnSignal])
            · rw [evaluate, hg]
              cases v with
              | some v => rfl
              | none => rfl
        | Assign name e =>
            rcases hsub : evaluate fuel e env s with ⟨sx, r⟩
            rw [evaluate, hsub]
            cases r with
            | error e1 =>
                have h := ihe e env s
                rw [hsub] at h
                exact h
            | ok value =>
                dsimp only
                rcases ha : Environment.assign fuel sx env name (some value) with e1 | sy
                · have h := assign_no_return fuel sx env name (some value)
                  rw [ha] at h
                  cases e1 with
                  | panicked m => rfl
                  | fuelOut => rfl
                  | rerr re =>
                      cases re with
                      | Error m l => rfl
                      | Return v => exact absurd h (by simp [isReturnSignal])
                · rfl
        | Logical le op re =>
            rcases hl : evaluate fuel le env s with ⟨s1, rl⟩
            rw [evaluate, hl]
            cases rl with
            | error e1 =>
                have h := ihe le env s
                rw [hl] at h
                exact h
            | ok left_expr =>
                dsimp only
                cases htt : op.token_type <;> dsimp only <;>
                  first
                    | (split
                       · rfl
                       · exact ihe re env s1)
                    | rfl
        | Call callee paren arguments =>
            rcases hc : evaluate fuel callee env s with ⟨s1, rc⟩
            rw [evaluate, hc]
            cases rc with
            | error e1 =>
                have h := ihe callee env s
                rw [hc] at h
                exact h
            | ok val =>
                cases val with
                | Number n => rfl
                | String t => rfl
                | Bool b => rfl
                | Nil => rfl
                | NativeFunction f =>
                    dsimp only
                    split
                    · rfl
                    · rfl
                | Function nm ps bd cl =>
                    dsimp only
                    split
                    · rfl
                    · rcases hnew : Environment.new s1 (some cl) with ⟨sa, fe⟩
                      dsimp only
                      rcases hb : evalBind fuel (ps.zip arguments) env fe sa with ⟨s2, rb⟩
                      cases rb with
                      | error e1 =>
                          have h := ihb (ps.zip arguments) env fe sa
                          rw [hb] at h
                          cases e1 with
                          | panicked m => rfl
                          | fuelOut => rfl
                          | rerr re =>
                              cases re with
                              | Error m l => rfl
                              | Return v => exact absurd h (by simp [isReturnSignal])
                      | ok u =>
                          dsimp only
                          rcases hx : execute_block fuel bd fe s2 with ⟨s3, rx⟩
                          cases rx with
                          | ok u2 => rfl
                          | error sig =>
                              cases sig with
                              | panicked m => rfl
                              | fuelOut => rfl
                              | rerr e1 => cases e1 <;> rfl
      · intro ps env fe s
        cases ps with
        | nil => rfl
        | cons pa rest =>
            obtain ⟨param, arg⟩ := pa
            rcases ha : evaluate fuel arg env s with ⟨sx, r⟩
            rw [evalBind, ha]
            cases r with
            | ok value => exact ihb rest env fe _
            | error e1 =>
                have h := ihe arg env s
                rw [ha] at h
                cases e1 with
                | panicked m => rfl
                | fuelOut => rfl
                | rerr re =>
                    cases re with
                    | Error m l => rfl
                    | Return v => exact absurd h (by simp [isReturnSignal])

/-- C3: a return signal raised by a return statement is converted back
into a produced value by the nearest enclosing call boundary and never
surfaces from expression evaluation (in particular never from a call),
while a genuine runtime error passes through the call boundary
unchanged. -/
theorem C3_return_unwinds_to_call_boundary :
    (∀ (fuel : Nat) (e : Expr) (env : Addr) (s : Store) (v : Value),
       (evaluate fuel e env s).2 ≠ .error (.rerr (.Return v))) ∧
    (∀ (fuel : Nat) (callee : Expr) (paren : Token) (arguments : List Expr)
       (env : Addr) (s s1 sa s2 s3 : Store) (nm : Str) (params : List Token)
       (body : List Stmt) (closure fe : Addr) (v : Value),
       evaluate fuel callee env s = (s1, .ok (.Function nm params body closure)) →
       arguments.length = params.length →
       Environment.new s1 (some closure) = (sa, fe) →
       evalBind fuel (params.zip arguments) env fe sa = (s2, .ok ()) →
       execute_block fuel body fe s2 = (s3, .error (.rerr (.Return v))) →
       evaluate (fuel + 1) (.Call callee paren arguments) env s = (s3, .ok v)) ∧
    (∀ (fuel : Nat) (callee : Expr) (paren : Token) (arguments : List Expr)
       (env : Addr) (s s1 sa s2 s3 : Store) (nm : Str) (params : List Token)
       (body : List Stmt) (closure fe : Addr) (msg : Str) (line : Nat),
       evaluate fuel callee env s = (s1, .ok (.Function nm params body closure)) →
       arguments.length = params.length →
       Environment.new s1 (some closure) = (sa, fe) →
       evalBind fuel (params.zip arguments) env fe sa = (s2, .ok ()) →
       execute_block fuel body fe s2 = (s3, .error (.rerr (.Error msg line))) →
       evaluate (fuel + 1) (.Call callee paren arguments) env s =
         (s3, .error (.rerr (.Error msg line)))) := by
  refine ⟨?_, ?_, ?_⟩
  · intro fuel e env s v h
    have hr := (evaluate_no_return fuel).1 e env s
    rw [h] at hr
    exact absurd hr (by simp [isReturnSignal])
  · intro fuel callee paren arguments env s s1 sa s2 s3 nm params body closure fe v
      hc hlen hnew hbind hblock
    rw [evaluate, hc]
    simp [hlen, hnew, hbind, hblock]
  · intro fuel callee paren arguments env s s1 sa s2 s3 nm params body closure fe msg
      line hc hlen hnew hbind hblock
    rw [evaluate, hc]
    simp [hlen, hnew, hbind, hblock]

/-- The token for the name `g` used by the claim witnesses. -/
def gTok : Token := ⟨.Identifier, "g".toList, none, 1⟩

/-- The token for the name `h` used by the claim witnesses. -/
def hTok : Token := ⟨.Identifier, "h".toList, none, 1⟩

/-- A closing-parenthesis token (the call-site token of `Expr::Call`). -/
def rParenTok : Token := ⟨.RightParen, ")".toList, none, 1⟩

/-- A store binding `g` to a function whose body returns `1` and `h` to a
function whose body evaluates `1 - "a"` (a runtime type error). -/
def returnStore : Store :=
  ⟨[⟨[ ("g".toList, some (.Function "g".toList []
          [.Return (some (.Literal (.Number 1)))] 0))
     , ("h".toList, some (.Function "h".toList []
          [.Expression (.Binary (.Literal (.Number 1))
             ⟨.Minus, "-".toList, none, 1⟩ (.Literal (.String "a".toList)))] 0)) ],
     none⟩], []⟩

set_option maxHeartbeats 4000000 in
/-- C3 witness: the theorem applied to concrete calls — `g()` produces
the returned `1`, `h()` propagates its runtime error uncaught, and no
expression evaluation is a bare return signal. -/
theorem C3_return_unwinds_witness :
    (evaluate (5 + 1) (.Call (.Variable gTok) rParenTok []) 0 returnStore).2 =
      .ok (.Number 1) ∧
    (evaluate (5 + 1) (.Call (.Variable hTok) rParenTok []) 0 returnStore).2 =
      .error (.rerr (.Error "Operands must be numbers.".toList 1)) ∧
    (evaluate 0 (.Literal .Nil) 0 returnStore).2 ≠
      .error (.rerr (.Return .Nil)) := by
  have h1 := C3_return_unwinds_to_call_boundary.2.1 5 (.Variable gTok) rParenTok [] 0
    returnStore returnStore (⟨returnStore.heap ++ [⟨[], some 0⟩], []⟩)
    (⟨returnStore.heap ++ [⟨[], some 0⟩], []⟩)
    (⟨returnStore.heap ++ [⟨[], some 0⟩, ⟨[], some 1⟩], []⟩)
    "g".toList [] [.Return (some (.Literal (.Number 1)))] 0 1 (.Number 1)
    rfl rfl rfl rfl rfl
  have h2 := C3_return_unwinds_to_call_boundary.2.2 5 (.Variable hTok) rParenTok [] 0
    returnStore returnStore (⟨returnStore.heap ++ [⟨[], some 0⟩], []⟩)
    (⟨returnStore.heap ++ [⟨[], some 0⟩], []⟩)
    (⟨returnStore.heap ++ [⟨[], some 0⟩, ⟨[], some 1⟩], []⟩)
    "h".toList []
    [.Expression (.Binary (.Literal (.Number 1))
       ⟨.Minus, "-".toList, none, 1⟩ (.Literal (.String "a".toList)))] 0 1
    "Operands must be numbers.".toList 1
    rfl rfl rfl rfl rfl
  exact ⟨by rw [h1], by rw [h2],
    C3_return_unwinds_to_call_boundary.1 0 (.Literal .Nil) 0 returnStore .Nil⟩

/-- Stated from the spec's words, for comparison with the `While` and
`For` loops of `Interpreter::execute`: a generic while loop over the
condition `c` — `v` is the condition value computed last; while it is
truthy, run `step`, then re-evaluate the condition, and repeat. -/
def condLoop (c : Expr) (step : Nat → Store → Store × Except Sig Unit) :
    Nat → Addr → Value → Store → Store × Except Sig Unit
  | 0, _, _, s => (s, .error .fuelOut)
  | fuel + 1, env, v, s =>
      if is_truthy v then
        match step fuel s with
        | (s1, .ok _) =>
            match evaluate fuel c env s1 with
            | (s2, .ok v2) => condLoop c step fuel env v2 s2
            | (s2, .error e) => (s2, .error e)
        | (s1, .error e) => (s1, .error e)
      else (s, .ok ())

/-- A `For` loop with no increment iterates exactly like the `While`
loop. -/
theorem forGo_none_eq_whileGo (fuel : Nat) (c : Expr) (b : Stmt) (env : Addr) :
    ∀ (v : Value) (s : Store), forGo fuel c none b env v s = whileGo fuel c b env v s := by
  induction fuel with
  | zero => intro v s; rfl
  | succ fuel ih =>
      intro v s
      rw [forGo, whileGo]
      by_cases hv : is_truthy v = true
      case neg => rw [if_neg hv, if_neg hv]
      case pos =>
          simp only [if_pos hv]
          rcases hx : execute fuel b env s with ⟨s1, r1⟩
          cases r1 with
          | error e => rfl
          | ok u =>
              dsimp only
              rcases he : evaluate fuel c env s1 with ⟨s2, r2⟩
              cases r2 with
              | error e => rfl
              | ok v2 => exact ih v2 s2

/-- The `While` loop is the generic while loop whose step is the body. -/
theorem whileGo_eq_condLoop (fuel : Nat) (c : Expr) (b : Stmt) (env : Addr) :
    ∀ (v : Value) (s : Store),
      whileGo fuel c b env v s =
        condLoop c (fun f s1 => execute f b env s1) fuel env v s := by
  induction fuel with
  | zero => intro v s; rfl
  | succ fuel ih =>
      intro v s
      rw [whileGo, condLoop]
      by_cases hv : is_truthy v = true
      case neg => rw [if_neg hv, if_neg hv]
      case pos =>
          simp only [if_pos hv]
          rcases hx : execute fuel b env s with ⟨s1, r1⟩
          cases r1 with
          | error e => rfl
          | ok u =>
              dsimp only
              rcases he : evaluate fuel c env s1 with ⟨s2, r2⟩
              cases r2 with
              | error e => rfl
              | ok v2 => exact ih v2 s2

/-- The `For` loop is the generic while loop whose step is the body
followed by the increment expression: the increment is evaluated after
each body execution and before the next condition check. -/
theorem forGo_eq_condLoop (fuel : Nat) (c : Expr) (inc : Option Expr) (b : Stmt)
    (env : Addr) :
    ∀ (v : Value) (s : Store),
      forGo fuel c inc b env v s =
        condLoop c (fun f s1 =>
          match execute f b env s1 with
          | (s2, .ok _) =>
              (match inc with
               | some ic =>
                   (match evaluate f ic env s2 with
                    | (s3, .ok _) => (s3, .ok ())
                    | (s3, .error e) => (s3, .error e))
               | none => (s2, .ok ()))
          | (s2, .error e) => (s2, .error e)) fuel env v s := by
  induction fuel with
  | zero => intro v s; rfl
  | succ fuel ih =>
      intro v s
      rw [forGo, condLoop]
      by_cases hv : is_truthy v = true
      case neg => rw [if_neg hv, if_neg hv]
      case pos =>
          simp only [if_pos hv]
          rcases hx : execute fuel b env s with ⟨s1, r1⟩
          cases r1 with
          | error e => rfl
          | ok u =>
              dsimp only
              cases inc with
              | none =>
                  dsimp only
                  rcases he : evaluate fuel c env s1 with ⟨s2, r2⟩
                  cases r2 with
                  | error e => rfl
                  | ok v2 => exact ih v2 s2
              | some ic =>
                  dsimp only
                  rcases hi : evaluate fuel ic env s1 with ⟨s2, r2⟩
                  cases r2 with
                  | error e => rfl
                  | ok u2 =>
                      dsimp only
                      rcases he : evaluate fuel c env s2 with ⟨s3, r3⟩
                      cases r3 with
                      | error e => rfl
                      | ok v2 => exact ih v2 s3

/-- The token sequence the scanner produces for `for (;;) print x;` — the
condition slot of the `for` is empty. -/
def forToks : List Token :=
  [ ⟨.For, "for".toList, none, 1⟩, ⟨.LeftParen, "(".toList, none, 1⟩
  , ⟨.Semicolon, ";".toList, none, 1⟩, ⟨.Semicolon, ";".toList, none, 1⟩
  , ⟨.RightParen, ")".toList, none, 1⟩, ⟨.Print, "print".toList, none, 1⟩
  , ⟨.Identifier, "x".toList, none, 1⟩, ⟨.Semicolon, ";".toList, none, 1⟩
  , ⟨.Eof, [], none, 1⟩ ]

/-- Whatever tokens it is given, the condition slot parser never returns
an absent condition. -/
theorem forCondition_ne_none (fuel : Nat) (tokens : List Token) (cur : Nat)
    (copt : Option Expr) (k : Nat) (h : forCondition fuel tokens cur = .ok copt k) :
    copt ≠ none := by
  match fuel with
  | 0 => simp [forCondition] at h
  | fuel + 1 =>
      simp only [forCondition] at h
      split at h
      · split at h
        · simp only [PRes.ok.injEq] at h
          obtain ⟨h1, -⟩ := h
          subst h1
          simp
        · simp_all
        · simp_all
      · simp only [PRes.ok.injEq] at h
        obtain ⟨h1, -⟩ := h
        subst h1
        simp

/-- Parsing `for (;;) print x;` starting after the `for` keyword yields a
`For` whose condition slot holds the literal `true` default. -/
theorem for_statement_forToks :
    for_statement 17 forToks 1 =
      .ok (.For none (some (.Literal (.Bool true))) none (.Print (.Variable
        ⟨.Identifier, "x".toList, none, 1⟩))) 8 := by
  simp [for_statement, forCondition, statement, print_statement, expression_stmt,
    expression, assignment, orExpr, andExpr, equality, comparison, term, factor,
    unary, primary, literal, orLoop, andLoop, equalityLoop, comparisonLoop,
    termLoop, factorLoop, matchesP, checkP, is_at_endP, peekP, previousP,
    consumeP, var_declaration, forToks, convert_token_literal]

set_option maxHeartbeats 4000000 in
/-- C4: the parser never omits the condition of a parsed `For` (an empty
condition slot is filled with literal `true`, as the concrete parse of
`for (;;) print x;` shows), and `For` execution is equivalent to a while
loop: the initializer, when present, runs exactly once before the loop;
a `For` without increment executes exactly as the corresponding `While`;
and in general `For` and `While` are the same generic while loop, the
`For` step being body-then-increment — the increment is evaluated after
each body execution and before the next condition check. -/
theorem C4_for_desugars_to_while :
    (∀ (fuel : Nat) (tokens : List Token) (cur : Nat) (stmt : Stmt) (cur2 : Nat)
       (i : Option Stmt) (c : Option Expr) (inc : Option Expr) (b : Stmt),
       for_statement fuel tokens cur = .ok stmt cur2 →
       stmt = .For i c inc b → c ≠ none) ∧
    (parse 20 forToks = .ok [.For none (some (.Literal (.Bool true))) none
       (.Print (.Variable ⟨.Identifier, "x".toList, none, 1⟩))] 8) ∧
    (∀ (fuel : Nat) (i : Stmt) (c : Expr) (b : Stmt) (env : Addr) (s : Store),
       execute (fuel + 1) (.For (some i) (some c) none b) env s =
         (match execute fuel i env s with
          | (s1, .ok _) => execute (fuel + 1) (.While c b) env s1
          | (s1, .error e) => (s1, .error e))) ∧
    (∀ (fuel : Nat) (c : Expr) (b : Stmt) (env : Addr) (s : Store),
       execute (fuel + 1) (.For none (some c) none b) env s =
         execute (fuel + 1) (.While c b) env s) ∧
    (∀ (fuel : Nat) (c : Expr) (b : Stmt) (env : Addr) (v : Value) (s : Store),
       whileGo fuel c b env v s =
         condLoop c (fun f s1 => execute f b env s1) fuel env v s) ∧
    (∀ (fuel : Nat) (c : Expr) (inc : Option Expr) (b : Stmt) (env : Addr)
       (v : Value) (s : Store),
       forGo fuel c inc b env v s =
         condLoop c (fun f s1 =>
           match execute f b env s1 with
           | (s2, .ok _) =>
               (match inc with
                | some ic =>
                    (match evaluate f ic env s2 with
                     | (s3, .ok _) => (s3, .ok ())
                     | (s3, .error e) => (s3, .error e))
                | none => (s2, .ok ()))
           | (s2, .error e) => (s2, .error e)) fuel env v s) := by
  refine ⟨?_, ?_, ?_, ?_, whileGo_eq_condLoop, forGo_eq_condLoop⟩
  · intro fuel tokens cur stmt cur2 i c inc b h hstmt
    match fuel with
    | 0 => simp [for_statement] at h
    | fuel + 1 =>
        subst hstmt
        simp only [for_statement] at h
        repeat' split at h
        all_goals try simp_all
        all_goals exact forCondition_ne_none _ _ _ _ _ (by assumption)
  · simp [parse, parseLoop, declaration, statement, for_statement, forCondition,
      print_statement, expression_stmt, expression, assignment, orExpr, andExpr,
      equality, comparison, term, factor, unary, primary, literal, orLoop,
      andLoop, equalityLoop, comparisonLoop, termLoop, factorLoop, matchesP,
      checkP, is_at_endP, peekP, previousP, consumeP, var_declaration, forToks,
      convert_token_literal]
  · intro fuel i c b env s
    rcases hi : execute fuel i env s with ⟨s1, ri⟩
    rw [execute, hi]
    cases ri with
    | error e => rfl
    | ok u =>
        dsimp only
        rw [execute]
        rcases hc : evaluate fuel c env s1 with ⟨s2, rc⟩
        cases rc with
        | error e => rfl
        | ok v => exact forGo_none_eq_whileGo fuel c b env v s2
  · intro fuel c b env s
    rw [execute, execute]
    rcases hc : evaluate fuel c env s with ⟨s2, rc⟩
    cases rc with
    | error e => rfl
    | ok v => exact forGo_none_eq_whileGo fuel c b env v s2

/-- C4 witness: the theorem applied to the concrete parse of
`for (;;) print x;`: the parsed condition is present (the literal `true`),
not omitted. -/
theorem C4_for_desugars_witness :
    (some (Expr.Literal (.Bool true)) : Option Expr) ≠ none :=
  C4_for_desugars_to_while.1 17 forToks 1
    (.For none (some (.Literal (.Bool true))) none
      (.Print (.Variable ⟨.Identifier, "x".toList, none, 1⟩))) 8
    none (some (.Literal (.Bool true))) none
    (.Print (.Variable ⟨.Identifier, "x".toList, none, 1⟩))
    for_statement_forToks rfl

/-- C10: a call of a declared (non-native) function whose body finishes
executing without any return signal taking effect evaluates to `nil`. -/
theorem C10_call_without_return_yields_nil
    (fuel : Nat) (callee : Expr) (paren : Token) (arguments : List Expr)
    (env : Addr) (s s1 sa s2 s3 : Store) (nm : Str) (params : List Token)
    (body : List Stmt) (closure fe : Addr)
    (hc : evaluate fuel callee env s = (s1, .ok (.Function nm params body closure)))
    (hlen : arguments.length = params.length)
    (hnew : Environment.new s1 (some closure) = (sa, fe))
    (hbind : evalBind fuel (params.zip arguments) env fe sa = (s2, .ok ()))
    (hblock : execute_block fuel body fe s2 = (s3, .ok ())) :
    evaluate (fuel + 1) (.Call callee paren arguments) env s = (s3, .ok .Nil) := by
  rw [evaluate, hc]
  simp [hlen, hnew, hbind, hblock]

/-- A store binding `f` to a function with empty parameter list and empty
body. -/
def callStore : Store :=
  ⟨[⟨[("f".toList, some (.Function "f".toList [] [] 0))], none⟩], []⟩

/-- The token for the name `f` used by the claim witnesses. -/
def fTok : Token := ⟨.Identifier, "f".toList, none, 1⟩

/-- C10 witness: the theorem applied to the concrete call `f()` of a
function with an empty body: the call produces `nil`. -/
theorem C10_call_without_return_witness :
    evaluate (2 + 1) (.Call (.Variable fTok) rParenTok []) 0 callStore =
      (⟨callStore.heap ++ [⟨[], some 0⟩, ⟨[], some 1⟩], []⟩, .ok .Nil) :=
  C10_call_without_return_yields_nil 2 (.Variable fTok) rParenTok [] 0
    callStore callStore (⟨callStore.heap ++ [⟨[], some 0⟩], []⟩)
    (⟨callStore.heap ++ [⟨[], some 0⟩], []⟩)
    (⟨callStore.heap ++ [⟨[], some 0⟩, ⟨[], some 1⟩], []⟩)
    "f".toList [] [] 0 1 rfl rfl rfl rfl rfl

end Lox
